import Mathlib

/-!
Verification of the oncology clinical-trial pipeline (feature engineering and
model-training notebooks).

The tabular data model is a shallow embedding of a pandas DataFrame: a table is
an association list from column names to typed columns (numeric, text, or
datetime), a column being a list of optional cell values (a missing cell is
modelled as none, matching NaN and NaT).

All computable arithmetic on rationals is expressed through integer operations,
Rat.ofInt and Rat.divInt so that concrete runs of the pipeline reduce inside
the kernel; the bridge lemmas relate those forms to ordinary field operations.
-/

deriving instance DecidableEq for Except

namespace TrialPipeline

/-! Rational helpers -/

/-- Embed an integer as a rational. -/
def qOfInt (n : Int) : ℚ := Rat.ofInt n

/-- Embed a natural number as a rational. -/
def qOfNat (n : Nat) : ℚ := Rat.ofInt (Int.ofNat n)

/-- The mean of two rationals, written with Rat.divInt so it evaluates by
kernel reduction.  Used for the median of an even-length column, matching
pandas' interpolated median. -/
def qHalfSum (a b : ℚ) : ℚ :=
  Rat.divInt (a.num * (b.den : Int) + b.num * (a.den : Int))
    (2 * (a.den : Int) * (b.den : Int))

/-! Character-level string utilities.  pandas `str.contains` with a literal
(no regex metacharacters in this code base) is substring containment; python
string comparison is code-point lexicographic. -/

/-- p occurs at the head of s. -/
def charsHasPre (p s : List Char) : Bool :=
  match p, s with
  | [], _ => true
  | _ :: _, [] => false
  | a :: p', b :: s' => a = b && charsHasPre p' s'

/-- p occurs somewhere inside s. -/
def charsHasSub (p s : List Char) : Bool :=
  match s with
  | [] => p.isEmpty
  | _ :: s' => charsHasPre p s || charsHasSub p s'

/-- Substring containment on strings (literal pattern, as used by the
notebook's `str.contains` calls). -/
def strContainsB (s pat : String) : Bool := charsHasSub pat.data s.data

/-- Code-point lexicographic order on character lists. -/
def charListLt : List Char → List Char → Bool
  | [], [] => false
  | [], _ :: _ => true
  | _ :: _, [] => false
  | a :: l, b :: m => if a < b then true else if b < a then false else charListLt l m

/-- Python-style lexicographic string comparison. -/
def strLtB (s t : String) : Bool := charListLt s.data t.data

/-- Multiplicity of a string in a list (structural, so it kernel-reduces). -/
def countStr (l : List String) (s : String) : Nat :=
  match l with
  | [] => 0
  | x :: rest => (if x = s then 1 else 0) + countStr rest s

/-! Calendar dates.  pandas datetimes in this pipeline are pure dates; we
model them by their Gregorian components, with conversion to a linear day
number (days since 1970-01-01) for date arithmetic, following the standard
civil-calendar algorithms. -/

structure CalDate where
  year : Int
  month : Nat
  mday : Nat
deriving DecidableEq, Repr

/-- Days since 1970-01-01 of a civil date (Gregorian, proleptic). -/
def CalDate.toDays (dt : CalDate) : Int :=
  let y : Int := if dt.month ≤ 2 then dt.year - 1 else dt.year
  let m : Int := Int.ofNat dt.month
  let d : Int := Int.ofNat dt.mday
  let era : Int := y / 400
  let yoe : Int := y - era * 400
  let mp : Int := if 2 < dt.month then m - 3 else m + 9
  let doy : Int := (153 * mp + 2) / 5 + d - 1
  let doe : Int := yoe * 365 + yoe / 4 - yoe / 100 + doy
  era * 146097 + doe - 719468

/-- Civil date of a day number (inverse of CalDate.toDays). -/
def daysToCalDate (z0 : Int) : CalDate :=
  let z := z0 + 719468
  let era : Int := z / 146097
  let doe : Int := z - era * 146097
  let yoe : Int := (doe - doe / 1460 + doe / 36524 - doe / 146096) / 365
  let y : Int := yoe + era * 400
  let doy : Int := doe - (365 * yoe + yoe / 4 - yoe / 100)
  let mp : Int := (5 * doy + 2) / 153
  let d : Int := doy - (153 * mp + 2) / 5 + 1
  let m : Int := if mp < 10 then mp + 3 else mp - 9
  { year := if m ≤ 2 then y + 1 else y, month := m.toNat, mday := d.toNat }

def isLeapYear (y : Int) : Bool :=
  y % 4 = 0 && (y % 100 ≠ 0 || y % 400 = 0)

def daysInMonth (y : Int) (m : Nat) : Nat :=
  if m = 2 then (if isLeapYear y then 29 else 28)
  else if m = 4 || m = 6 || m = 9 || m = 11 then 30
  else 31

/-- Split a character list on a separator character. -/
def splitOnChar (sep : Char) : List Char → List (List Char)
  | [] => [[]]
  | c :: rest =>
    let r := splitOnChar sep rest
    if c = sep then [] :: r
    else match r with
      | [] => [[c]]
      | g :: gs => (c :: g) :: gs

def digitsToNatCore : List Char → Nat → Option Nat
  | [], acc => some acc
  | c :: rest, acc =>
    if c.isDigit then digitsToNatCore rest (acc * 10 + (c.toNat - 48)) else none

/-- Parse a non-empty run of decimal digits. -/
def digitsToNat (l : List Char) : Option Nat :=
  match l with
  | [] => none
  | _ => digitsToNatCore l 0

/-- Model of `pd.to_datetime(..., errors='coerce')` on one cell: parse an ISO
`YYYY-MM-DD` date, yield none (NaT) on anything unparsable. -/
def parseDate (s : String) : Option CalDate :=
  match splitOnChar '-' s.data with
  | [ys, ms, ds] =>
    match digitsToNat ys, digitsToNat ms, digitsToNat ds with
    | some y, some m, some d =>
      if 1 ≤ m ∧ m ≤ 12 ∧ 1 ≤ d ∧ d ≤ daysInMonth (Int.ofNat y) m then
        some { year := Int.ofNat y, month := m, mday := d }
      else none
    | _, _, _ => none
  | _ => none

/-- Model of `pd.to_numeric(..., errors='coerce')` on one cell: parse an
optionally signed decimal numeral, yield none (NaN) otherwise. -/
def parseNumeral (s : String) : Option ℚ :=
  let core : List Char → Option ℚ := fun l =>
    match splitOnChar '.' l with
    | [ip] => (digitsToNat ip).map (fun n => qOfNat n)
    | [ip, fp] =>
      match digitsToNat ip, digitsToNat fp with
      | some n, some f => some (Rat.divInt (Int.ofNat (n * 10 ^ fp.length + f)) (Int.ofNat (10 ^ fp.length)))
      | _, _ => none
    | _ => none
  match s.data with
  | '-' :: rest => (core rest).map (fun q => -q)
  | l => core l

/-! Generic option-list utilities -/

/-- The present (non-missing) values of a column, in order. -/
def somes {α : Type} : List (Option α) → List α
  | [] => []
  | none :: rest => somes rest
  | some a :: rest => a :: somes rest

/-- Ascending insertion into a sorted list of rationals. -/
def insertAsc (x : ℚ) : List ℚ → List ℚ
  | [] => [x]
  | y :: l => if x < y then x :: y :: l else y :: insertAsc x l

/-- Ascending sort of a list of rationals. -/
def sortAsc : List ℚ → List ℚ
  | [] => []
  | x :: l => insertAsc x (sortAsc l)

/-- Median of a sorted list: middle element for odd length, mean of the two
middle elements for even length (pandas' default interpolation). -/
def medianOfSorted (l : List ℚ) : Option ℚ :=
  match l with
  | [] => none
  | _ :: _ =>
    if l.length % 2 = 1 then some (l.getD (l.length / 2) 0)
    else some (qHalfSum (l.getD (l.length / 2 - 1) 0) (l.getD (l.length / 2) 0))

/-- Model of `Series.median()`: the median of the non-missing values,
none when every value is missing. -/
def medianOpt (vals : List (Option ℚ)) : Option ℚ :=
  medianOfSorted (sortAsc (somes vals))

/-- Scan step for the mode: keep the candidate with the larger multiplicity,
breaking ties toward the lexicographically smaller string (pandas
`Series.mode()` returns its answers sorted, and `[0]` takes the smallest). -/
def pickMode (l : List String) : List String → String → String
  | [], best => best
  | c :: rest, best =>
    if countStr l best < countStr l c then pickMode l rest c
    else if countStr l c < countStr l best then pickMode l rest best
    else if strLtB c best then pickMode l rest c
    else pickMode l rest best

/-- Model of `Series.mode()[0]` on a column with at least one present value:
the most frequent present value, smallest first on ties.  Returns the empty
string on an all-missing column (that case is an error in the pipeline and is
never reached when this default matters). -/
def modeValD (vals : List (Option String)) : String :=
  match somes vals with
  | [] => ""
  | x :: xs => pickMode (x :: xs) xs x

/-! The DataFrame model -/

/-- One column of a DataFrame, carrying its dtype: numeric (int64/float64),
object (text), or datetime64.  A missing cell (NaN/NaT) is none. -/
inductive ColVals where
  | num (vals : List (Option ℚ))
  | text (vals : List (Option String))
  | date (vals : List (Option CalDate))
deriving DecidableEq, Repr

/-- A DataFrame: named, ordered columns. -/
abbrev Table := List (String × ColVals)

/-- Column access by name (first match, as in pandas with unique labels). -/
def lookup (t : Table) (n : String) : Option ColVals :=
  match t with
  | [] => none
  | (m, c) :: rest => if m = n then some c else lookup rest n

/-- Model of `name in df.columns`. -/
def hasCol (t : Table) (n : String) : Bool := (lookup t n).isSome

/-- Model of `df[name] = col`: replace the column in place if it exists,
otherwise append it at the end. -/
def setCol : Table → String → ColVals → Table
  | [], n, c => [(n, c)]
  | (m, c') :: rest, n, c =>
    if m = n then (n, c) :: rest else (m, c') :: setCol rest n c

/-- Apply a column transformation to every column (used for the dtype-selected
imputation loops, whose per-column action depends only on the column). -/
def mapCols (f : ColVals → ColVals) : Table → Table
  | [] => []
  | (n, c) :: rest => (n, f c) :: mapCols f rest

/-- Apply a fallible column transformation to every column, stopping at the
first error (the notebook's imputation loop raises on the first bad column). -/
def traverseCols (f : ColVals → Except String ColVals) : Table → Except String Table
  | [] => .ok []
  | (n, c) :: rest =>
    match f c with
    | .error e => .error e
    | .ok c' =>
      match traverseCols f rest with
      | .error e => .error e
      | .ok rest' => .ok ((n, c') :: rest')

/-- Keep the entries of a list selected by a boolean row mask. -/
def maskFilter {α : Type} : List Bool → List α → List α
  | _, [] => []
  | [], _ => []
  | b :: ms, x :: xs => if b then x :: maskFilter ms xs else maskFilter ms xs

/-- Apply a row mask to one column. -/
def maskFilterCol (mask : List Bool) : ColVals → ColVals
  | .num vs => .num (maskFilter mask vs)
  | .text vs => .text (maskFilter mask vs)
  | .date vs => .date (maskFilter mask vs)

/-- Model of boolean-mask row selection `df[mask]`. -/
def filterTable (t : Table) (mask : List Bool) : Table :=
  mapCols (maskFilterCol mask) t

/-! Feature-engineering notebook, step by step (2_feature_engineering). -/

/-- Model of `pd.to_numeric(col, errors='coerce')` on a whole column. -/
def toNumericCol : ColVals → ColVals
  | .num vs => .num vs
  | .text vs => .num (vs.map (fun v => v.bind parseNumeral))
  | .date vs => .num (vs.map (fun v => v.map (fun d => qOfInt (d.toDays * 86400000000000))))

/-- `df_clean['EnrollmentCount'] = pd.to_numeric(df_clean['EnrollmentCount'],
errors='coerce')` — the access is unguarded, so a table without the column
raises KeyError. -/
def coerceEnrollment (t : Table) : Except String Table :=
  match lookup t "EnrollmentCount" with
  | none => .error "KeyError: EnrollmentCount"
  | some c => .ok (setCol t "EnrollmentCount" (toNumericCol c))

/-- Model of `col.isnull().sum() > 0`: the column has a missing cell. -/
def hasNone {α : Type} : List (Option α) → Bool
  | [] => false
  | none :: _ => true
  | some _ :: rest => hasNone rest

/-- The body of the numeric imputation loop on one column: if any value is
missing, fill missing values with the column median (when every value is
missing the median is NaN and fillna leaves the column unchanged). -/
def fillNumCol (vs : List (Option ℚ)) : List (Option ℚ) :=
  if hasNone vs then
    vs.map (fun v => v.or (medianOpt vs))
  else vs

/-- The per-column action of the numeric imputation loop. -/
def colFillNum : ColVals → ColVals
  | .num vs => .num (fillNumCol vs)
  | c => c

/-- `for col in numeric_cols: ... fillna(median)` over the whole table. -/
def fillNumeric (t : Table) : Table :=
  mapCols colFillNum t

/-- Mode imputation step on the values of one text column.  Only meaningful
when a present value exists; the pipeline errors out before using the default
in the all-missing case. -/
def modeFillList (vs : List (Option String)) : List (Option String) :=
  if hasNone vs then
    vs.map (fun v => some (v.getD (modeValD vs)))
  else vs

/-- The body of the categorical imputation loop on one text column:
`mode_value = df_clean[col].mode()[0]` raises KeyError when the column has no
present value (`mode()` is empty). -/
def fillModeCol (vs : List (Option String)) : Except String (List (Option String)) :=
  if hasNone vs then
    match somes vs with
    | [] => .error "KeyError: 0"
    | _ :: _ => .ok (modeFillList vs)
  else .ok vs

/-- The per-column action of the categorical imputation loop. -/
def colModeStep : ColVals → Except String ColVals
  | .text vs => (fillModeCol vs).map .text
  | c => .ok c

/-- `for col in categorical_cols: ... fillna(mode)` over the whole table. -/
def fillMode (t : Table) : Except String Table :=
  traverseCols colModeStep t

/-- Model of `pd.to_datetime(col, errors='coerce')` on a whole column (a
numeric column is interpreted as nanoseconds since the epoch, as pandas does).
-/
def toDatetimeCol : ColVals → ColVals
  | .text vs => .date (vs.map (fun v => v.bind parseDate))
  | .date vs => .date vs
  | .num vs => .date (vs.map (fun v => v.map (fun q => daysToCalDate ((q.num / q.den) / 86400000000000))))

def dateColumnNames : List String := ["StartDate", "CompletionDate", "PrimaryCompletionDate"]

/-- Convert one date column when it is present. -/
def convertDateCol (nm : String) (t : Table) : Table :=
  match lookup t nm with
  | none => t
  | some c => setCol t nm (toDatetimeCol c)

/-- `for col in date_columns: if col in df_clean.columns: to_datetime(...)`. -/
def convertDates (t : Table) : Table :=
  convertDateCol "PrimaryCompletionDate"
    (convertDateCol "CompletionDate" (convertDateCol "StartDate" t))

/-- `start_year`, `start_month`, `start_quarter` from the parsed StartDate.
After convertDates, a present StartDate column is always a datetime column;
the fallthrough branch is unreachable in the pipeline. -/
def addTemporal (t : Table) : Table :=
  match lookup t "StartDate" with
  | some (.date ds) =>
    let t1 := setCol t "start_year" (.num (ds.map (fun v => v.map (fun d => qOfInt d.year))))
    let t2 := setCol t1 "start_month" (.num (ds.map (fun v => v.map (fun d => qOfNat d.month))))
    setCol t2 "start_quarter" (.num (ds.map (fun v => v.map (fun d => qOfNat ((d.month + 2) / 3)))))
  | _ => t

/-- Raw day differences `(CompletionDate - StartDate).dt.days`. -/
def rawDurs (cs ss : List (Option CalDate)) : List (Option ℚ) :=
  List.zipWith (fun c s =>
    match c, s with
    | some cd, some sd => some (qOfInt (cd.toDays - sd.toDays))
    | _, _ => none) cs ss

/-- `df_clean.loc[dur < 0, 'trial_duration_days'] = np.nan`: blank negatives. -/
def validDurs (cs ss : List (Option CalDate)) : List (Option ℚ) :=
  (rawDurs cs ss).map (fun v =>
    match v with
    | some d => if d < 0 then none else some d
    | none => none)

/-- Durations with negatives blanked then missing filled with the median of
the remaining valid durations. -/
def durFill (cs ss : List (Option CalDate)) : List (Option ℚ) :=
  (validDurs cs ss).map (fun v => v.or (medianOpt (validDurs cs ss)))

/-- The duration block: only runs when `trial_duration_days` is not already a
column and `CompletionDate` is; the subtraction accesses `StartDate`
unguarded, so its absence raises KeyError.  After convertDates both date
columns are datetime when present, so the TypeError branch is unreachable. -/
def addDuration (t : Table) : Except String Table :=
  if hasCol t "trial_duration_days" then .ok t
  else match lookup t "CompletionDate" with
  | none => .ok t
  | some cCol =>
    match lookup t "StartDate" with
    | none => .error "KeyError: StartDate"
    | some sCol =>
      match cCol, sCol with
      | .date cs, .date ss => .ok (setCol t "trial_duration_days" (.num (durFill cs ss)))
      | _, _ => .error "TypeError: unsupported operand"

/-- `(col == literal).astype(int)` on a column of any dtype: comparison of a
non-text column with a string is elementwise False, and NaN compares False. -/
def eqIndicator (c : ColVals) (lit : String) : List (Option ℚ) :=
  match c with
  | .text vs => vs.map (fun v => some (if v = some lit then (1 : ℚ) else 0))
  | .num vs => vs.map (fun _ => some (0 : ℚ))
  | .date vs => vs.map (fun _ => some (0 : ℚ))

/-- `col.str.contains(lit, na=False).astype(int)`: the `.str` accessor raises
on a non-text column; a missing cell yields 0 via na=False. -/
def containsIndicator (c : ColVals) (lit : String) : Except String (List (Option ℚ)) :=
  match c with
  | .text vs => .ok (vs.map (fun v =>
      match v with
      | some s => some (if strContainsB s lit then (1 : ℚ) else 0)
      | none => some 0))
  | _ => .error "AttributeError: str accessor"

/-- One guarded `str.contains` indicator: skip when the source column is
absent, else derive the 0/1 column. -/
def addContainsFlag (src flag lit : String) (t : Table) : Except String Table :=
  match lookup t src with
  | none => .ok t
  | some c =>
    match containsIndicator c lit with
    | .error e => .error e
    | .ok vs => .ok (setCol t flag (.num vs))

/-- `is_industry_sponsored` from LeadSponsorClass, when present. -/
def addSponsorFlag (t : Table) : Table :=
  match lookup t "LeadSponsorClass" with
  | none => t
  | some c => setCol t "is_industry_sponsored" (.num (eqIndicator c "INDUSTRY"))

/-- The binary-indicator block: sponsor equality flag, phase flags, study
design flags, and country flags, each guarded by source-column presence. -/
def addIndicators (t : Table) : Except String Table :=
  (addContainsFlag "Phase" "is_phase_1" "Phase 1" (addSponsorFlag t)).bind
        (addContainsFlag "Phase" "is_phase_2" "Phase 2") |>.bind
        (addContainsFlag "Phase" "is_phase_3" "Phase 3") |>.bind
        (addContainsFlag "Phase" "is_phase_4" "Phase 4") |>.bind
        (addContainsFlag "StudyDesign" "is_randomized" "Randomized") |>.bind
        (addContainsFlag "StudyDesign" "is_double_blind" "Double Blind") |>.bind
        (addContainsFlag "StudyDesign" "is_single_blind" "Single Blind") |>.bind
        (addContainsFlag "StudyDesign" "is_open_label" "Open Label") |>.bind
        (addContainsFlag "LocationCountry" "is_multi_country" ",") |>.bind
        (addContainsFlag "LocationCountry" "has_us_sites" "United States")

/-- `len(str(cell))` after `fillna('')` for the text-length features.  The
non-text branches model pandas' stringification: a filled-missing cell is the
empty string (length 0); a date prints as `YYYY-MM-DD`; a number's printed
length is approximated by its decimal representation. -/
def lenCol : ColVals → List (Option ℚ)
  | .text vs => vs.map (fun v => some (qOfNat (v.getD "").length))
  | .num vs => vs.map (fun v =>
      match v with
      | none => some 0
      | some q => some (qOfNat (toString q.num).length))
  | .date vs => vs.map (fun v =>
      match v with
      | none => some 0
      | some d => some (qOfNat ((toString d.year).length + 6)))

def textColumnNames : List String := ["BriefTitle", "BriefSummary", "DetailedDescription"]

/-- One `df_clean[f'(col)_length'] = df_clean[col].fillna('').astype(str).apply(len)`. -/
def addLengthFor (nm : String) (t : Table) : Table :=
  match lookup t nm with
  | none => t
  | some c => setCol t (nm ++ "_length") (.num (lenCol c))

/-- The text-length block over the configured free-text columns. -/
def addTextLengths (t : Table) : Table :=
  addLengthFor "DetailedDescription" (addLengthFor "BriefSummary" (addLengthFor "BriefTitle" t))

def completedStatuses : List String := ["Completed", "Terminated", "Suspended", "Withdrawn"]

/-- `col.isin(completed_statuses)` as a row mask (NaN is not in the set; a
non-text status column matches nothing). -/
def isinMask (c : ColVals) (set : List String) : List Bool :=
  match c with
  | .text vs => vs.map (fun v =>
      match v with
      | some s => decide (s ∈ set)
      | none => false)
  | .num vs => vs.map (fun _ => false)
  | .date vs => vs.map (fun _ => false)

/-- Target-variable creation: when `completion_status` is not already present
and `OverallStatus` is, add the binary target and filter the modeling frame to
the definitive statuses; otherwise the modeling frame is the whole cleaned
frame. Returns (df_clean, df_modeling). -/
def addTarget (t : Table) : Table × Table :=
  if hasCol t "completion_status" then (t, t)
  else match lookup t "OverallStatus" with
  | none => (t, t)
  | some c =>
    let t' := setCol t "completion_status" (.num (eqIndicator c "Completed"))
    (t', filterTable t' (isinMask c completedStatuses))

/-- The whole feature-engineering transform of the notebook, from the loaded
raw table to (df_clean, df_modeling). -/
def featureEngineer (t : Table) : Except String (Table × Table) :=
  match coerceEnrollment t with
  | .error e => .error e
  | .ok t1 =>
    let t2 := fillNumeric t1
    match fillMode t2 with
    | .error e => .error e
    | .ok t3 =>
      let t4 := convertDates t3
      let t5 := addTemporal t4
      match addDuration t5 with
      | .error e => .error e
      | .ok t6 =>
        match addIndicators t6 with
        | .error e => .error e
        | .ok t7 => .ok (addTarget (addTextLengths t7))

/-- df_clean of a successful run (junk on error; used to state witnesses). -/
def feClean (t : Table) : Table :=
  match featureEngineer t with
  | .ok p => p.1
  | .error _ => []

/-- df_modeling of a successful run (junk on error). -/
def feModel (t : Table) : Table :=
  match featureEngineer t with
  | .ok p => p.2
  | .error _ => []

/-- The data-loading guard plus the transform: with no snapshot file matching
the glob the stage raises FileNotFoundError, otherwise it runs on the most
recent file (modelled as the head of the candidate list). -/
def runStage (files : List Table) : Except String (Table × Table) :=
  match files with
  | [] => .error "FileNotFoundError: No processed data files found"
  | f :: _ => featureEngineer f

/-! Model-training notebook (3_model_training). -/

/-- Per-candidate classification metrics, one row of the metrics frame. -/
structure ClfMetrics where
  accuracy : ℚ
  precision_score : ℚ
  recall_score : ℚ
  f1_score : ℚ
deriving DecidableEq, Repr

/-- Per-candidate regression metrics, one row of the metrics frame. -/
structure RegMetrics where
  r2_score : ℚ
  mae : ℚ
  rmse : ℚ
deriving DecidableEq, Repr

/-- Stable ascending insertion by the score component. -/
def insertByKey (x : String × ℚ) : List (String × ℚ) → List (String × ℚ)
  | [] => [x]
  | y :: l => if x.2 < y.2 then x :: y :: l else y :: insertByKey x l

/-- Stable ascending sort by score: equal scores keep their enumeration
order.  numpy's default argsort runs as a plain insertion sort below 16
elements, so it is stable on the candidate sets of this notebook (3 models). -/
def sortByKeyAsc (rows : List (String × ℚ)) : List (String × ℚ) :=
  rows.foldl (fun acc x => insertByKey x acc) []

/-- Model of `DataFrame.sort_values(score, ascending=False)`: pandas computes
the ascending argsort and reverses it, so equal scores come out in reversed
enumeration order. -/
def sortValsDesc (rows : List (String × ℚ)) : List (String × ℚ) :=
  (sortByKeyAsc rows).reverse

/-- `metrics.sort_values(key, ascending=False).index[0]`. -/
def selectBest (rows : List (String × ℚ)) : Option String :=
  (sortValsDesc rows).head?.map Prod.fst

/-- `best_classification_model_name`: highest f1_score wins. -/
def bestClassificationModelName (rows : List (String × ClfMetrics)) : Option String :=
  selectBest (rows.map (fun p => (p.1, p.2.f1_score)))

/-- `best_regression_model_name`: highest r2_score wins. -/
def bestRegressionModelName (rows : List (String × RegMetrics)) : Option String :=
  selectBest (rows.map (fun p => (p.1, p.2.r2_score)))

/-- `col == literal` as a row mask (NaN is False; non-text column is all
False). -/
def eqMask (c : ColVals) (lit : String) : List Bool :=
  match c with
  | .text vs => vs.map (fun v => v = some lit)
  | .num vs => vs.map (fun _ => false)
  | .date vs => vs.map (fun _ => false)

/-- `df_classification = df_modeling[df_modeling['overall_status'].isin(
['Completed', 'Terminated'])]`. -/
def dfClassification (t : Table) : Except String Table :=
  match lookup t "overall_status" with
  | none => .error "KeyError: overall_status"
  | some c => .ok (filterTable t (isinMask c ["Completed", "Terminated"]))

/-- `df_regression = df_modeling[df_modeling['overall_status'] ==
'Completed']`. -/
def dfRegression (t : Table) : Except String Table :=
  match lookup t "overall_status" with
  | none => .error "KeyError: overall_status"
  | some c => .ok (filterTable t (eqMask c "Completed"))

/-! Derived-column name sets and value predicates used by the theorems. -/

/-- The binary indicator columns derived by the categorical-features block. -/
def indicatorNames : List String :=
  ["is_industry_sponsored", "is_phase_1", "is_phase_2", "is_phase_3", "is_phase_4",
   "is_randomized", "is_double_blind", "is_single_blind", "is_open_label",
   "is_multi_country", "has_us_sites"]

/-- Every present value of the column is 0 or 1. -/
def all01 (vs : List (Option ℚ)) : Prop :=
  ∀ q : ℚ, some q ∈ vs → q = 0 ∨ q = 1

/-- One scan step keeping the best-so-far candidate, later ties replacing
earlier ones. -/
def scanBest (best : Option (String × ℚ)) (x : String × ℚ) : Option (String × ℚ) :=
  match best with
  | none => some x
  | some b => if x.2 < b.2 then some b else some x

/-- Last-occurring maximum of a scored candidate list (the scan equivalent of
reversing a stable ascending sort and taking the head). -/
def lastArgmax (rows : List (String × ℚ)) : Option (String × ℚ) :=
  rows.foldl scanBest none

/-- Ascending order on the scores of adjacent entries. -/
def sortedByKey : List (String × ℚ) → Prop
  | [] => True
  | [_] => True
  | a :: b :: l => a.2 ≤ b.2 ∧ sortedByKey (b :: l)

/-! Concrete tables used by witnesses, counterexamples and failing inputs. -/

/-- Two trials: one with a positive span (2020-01-01 to 2020-04-10, 100 days)
and one with its dates swapped, producing a negative computed duration. -/
def tableDurations : Table :=
  [("EnrollmentCount", .num [some 5, some 7]),
   ("StartDate", .text [some "2020-01-01", some "2020-04-10"]),
   ("CompletionDate", .text [some "2020-04-10", some "2020-01-01"])]

/-- A table that already carries a trial_duration_days column holding a
negative value; the duration block is skipped for it. -/
def tableNegativePre : Table :=
  [("EnrollmentCount", .num [some 5]),
   ("trial_duration_days", .num [some (-5)])]

/-- A table that already carries a completion_status column, so the
definitive-outcome filter is skipped, together with an indefinite status. -/
def tablePreTarget : Table :=
  [("EnrollmentCount", .num [some 5]),
   ("OverallStatus", .text [some "Recruiting"]),
   ("completion_status", .num [some 0])]

/-- The spec's status example: Completed, Terminated, Recruiting. -/
def tableStatuses : Table :=
  [("EnrollmentCount", .num [some 1, some 2, some 3]),
   ("OverallStatus", .text [some "Completed", some "Terminated", some "Recruiting"])]

/-- All three configured free-text columns, each with a missing cell next to
a present value, so mode imputation has something to fill with. -/
def tableTexts : Table :=
  [("EnrollmentCount", .num [some 1, some 2]),
   ("BriefTitle", .text [some "ab", none]),
   ("BriefSummary", .text [none, some "xyz"]),
   ("DetailedDescription", .text [some "long text", none])]

/-- The spec's enrollment example: 10, 20, NaN, 40. -/
def tableEnrollment : Table :=
  [("EnrollmentCount", .num [some 10, some 20, none, some 40])]

/-- A table with a Phase column for the indicator witness. -/
def tablePhases : Table :=
  [("EnrollmentCount", .num [some 1, some 2]),
   ("Phase", .text [some "Phase 1", some "Not Applicable"])]

/-- A snapshot with CompletionDate but no StartDate: the claimed behavior is
to skip the duration feature, the code hits an unguarded StartDate access. -/
def tableNoStart : Table :=
  [("EnrollmentCount", .num [some 5]),
   ("CompletionDate", .text [some "2020-01-01"])]

/-- A full small table for the idempotence witness. -/
def tableIdem : Table :=
  [("EnrollmentCount", .num [some 10, some 20, some 30]),
   ("StartDate", .text [some "2020-01-01", some "2020-04-10", some "2019-06-15"]),
   ("CompletionDate", .text [some "2020-04-10", some "2020-01-01", some "2021-01-01"]),
   ("OverallStatus", .text [some "Completed", some "Terminated", some "Completed"])]

/-- A modeling table for the training-stage filters, with every definitive
status plus an indefinite one. -/
def tableModeling : Table :=
  [("nct_id", .text [some "a", some "b", some "c", some "d", some "e"]),
   ("overall_status", .text [some "Completed", some "Terminated", some "Suspended",
                             some "Withdrawn", some "Recruiting"]),
   ("duration_days", .num [some 100, some 50, some 70, some 20, some 30])]

/-- A status column with a missing entry whose mode is definitive. -/
def tableMissingStatus : Table :=
  [("EnrollmentCount", .num [some 1, some 2, some 3]),
   ("OverallStatus", .text [some "Completed", none, some "Completed"])]

/-- Tied classification metrics: two candidates with the same f1_score. -/
def tiedClfRows : List (String × ClfMetrics) :=
  [("LogisticRegression", { accuracy := Rat.divInt 9 10, precision_score := Rat.divInt 4 5,
                            recall_score := Rat.divInt 4 5, f1_score := Rat.divInt 4 5 }),
   ("RandomForest", { accuracy := Rat.divInt 7 10, precision_score := Rat.divInt 3 5,
                      recall_score := Rat.divInt 3 5, f1_score := Rat.divInt 4 5 })]

/-- A one-candidate metrics list for each task. -/
def singleClfRows : List (String × ClfMetrics) :=
  [("GradientBoosting", { accuracy := 1, precision_score := 1, recall_score := 1, f1_score := 1 })]

def singleRegRows : List (String × RegMetrics) :=
  [("LinearRegression", { r2_score := 1, mae := 0, rmse := 0 })]

/-! Generic lemmas about the table operations. -/

theorem lookup_setCol_self (t : Table) (n : String) (c : ColVals) :
    lookup (setCol t n c) n = some c := by
  induction t with
  | nil => simp [setCol, lookup]
  | cons p rest ih =>
    by_cases h : p.1 = n
    · simp [setCol, h, lookup]
    · simp [setCol, h, lookup, ih]

theorem lookup_setCol_ne (t : Table) (n m : String) (c : ColVals) (h : m ≠ n) :
    lookup (setCol t n c) m = lookup t m := by
  have hnm : ¬ n = m := fun hh => h hh.symm
  induction t with
  | nil => simp [setCol, lookup, hnm]
  | cons p rest ih =>
    obtain ⟨pn, pc⟩ := p
    by_cases hp : pn = n
    · subst hp
      simp [setCol, lookup, hnm]
    · simp [setCol, lookup, hp, ih]

theorem lookup_mapCols (f : ColVals → ColVals) (t : Table) (n : String) :
    lookup (mapCols f t) n = (lookup t n).map f := by
  induction t with
  | nil => simp [mapCols, lookup]
  | cons p rest ih =>
    by_cases h : p.1 = n
    · simp [mapCols, lookup, h]
    · simp [mapCols, lookup, h, ih]

theorem traverseCols_ok_none (f : ColVals → Except String ColVals) (t t' : Table)
    (n : String) (h : traverseCols f t = .ok t') (hn : lookup t n = none) :
    lookup t' n = none := by
  induction t generalizing t' with
  | nil =>
    simp only [traverseCols, Except.ok.injEq] at h
    subst h
    exact rfl
  | cons p rest ih =>
    obtain ⟨pn, pc⟩ := p
    simp only [traverseCols] at h
    cases hf : f pc with
    | error e => rw [hf] at h; exact absurd h (by simp)
    | ok c' =>
      rw [hf] at h
      cases ht : traverseCols f rest with
      | error e => rw [ht] at h; exact absurd h (by simp)
      | ok rest' =>
        rw [ht] at h
        simp only [Except.ok.injEq] at h
        subst h
        simp only [lookup] at hn ⊢
        by_cases hp : pn = n
        · simp [hp] at hn
        · simp only [hp, if_false] at hn ⊢
          exact ih rest' ht hn

theorem traverseCols_ok_some (f : ColVals → Except String ColVals) (t t' : Table)
    (n : String) (c : ColVals) (h : traverseCols f t = .ok t')
    (hn : lookup t n = some c) :
    ∃ c', f c = .ok c' ∧ lookup t' n = some c' := by
  induction t generalizing t' with
  | nil => simp [lookup] at hn
  | cons p rest ih =>
    obtain ⟨pn, pc⟩ := p
    simp only [traverseCols] at h
    cases hf : f pc with
    | error e => rw [hf] at h; exact absurd h (by simp)
    | ok c' =>
      rw [hf] at h
      cases ht : traverseCols f rest with
      | error e => rw [ht] at h; exact absurd h (by simp)
      | ok rest' =>
        rw [ht] at h
        simp only [Except.ok.injEq] at h
        subst h
        simp only [lookup] at hn ⊢
        by_cases hp : pn = n
        · simp only [hp, if_true] at hn ⊢
          exact ⟨c', by rw [← Option.some_inj.mp hn]; exact hf, rfl⟩
        · simp only [hp, if_false] at hn ⊢
          exact ih rest' ht hn

theorem mem_maskFilter {α : Type} (mask : List Bool) (l : List α) (x : α)
    (h : x ∈ maskFilter mask l) : x ∈ l := by
  induction l generalizing mask with
  | nil => cases mask <;> simp [maskFilter] at h
  | cons y ys ih =>
    cases mask with
    | nil => simp [maskFilter] at h
    | cons b ms =>
      by_cases hb : b
      · subst hb
        simp only [maskFilter, if_true] at h
        rcases List.mem_cons.mp h with h1 | h1
        · exact List.mem_cons.mpr (Or.inl h1)
        · exact List.mem_cons.mpr (Or.inr (ih ms h1))
      · simp only [maskFilter, hb, if_false] at h
        exact List.mem_cons.mpr (Or.inr (ih ms h))

theorem getD_mem_maskFilter {α : Type} (mask : List Bool) (l : List α) (i : Nat)
    (d : α) (hi : i < l.length) (hm : mask.getD i false = true) :
    l.getD i d ∈ maskFilter mask l := by
  induction l generalizing mask i with
  | nil => simp at hi
  | cons y ys ih =>
    cases mask with
    | nil => simp [List.getD] at hm
    | cons b ms =>
      cases i with
      | zero =>
        simp only [List.getD_cons_zero] at hm ⊢
        subst hm
        simp [maskFilter]
      | succ j =>
        simp only [List.getD_cons_succ] at hm ⊢
        have hj : j < ys.length := by simpa using Nat.lt_of_succ_lt_succ hi
        by_cases hb : b
        · subst hb
          simp only [maskFilter, if_true]
          exact List.mem_cons.mpr (Or.inr (ih ms j hj hm))
        · simp only [maskFilter, hb, if_false]
          exact ih ms j hj hm

theorem exceptBind_ok {α β : Type} (e : Except String α) (f : α → Except String β)
    (b : β) (h : e.bind f = .ok b) : ∃ a, e = .ok a ∧ f a = .ok b := by
  cases e with
  | error msg => exact absurd h (by simp [Except.bind])
  | ok a => exact ⟨a, rfl, h⟩

/-! Lookup lemmas for the individual pipeline steps. -/

theorem coerce_ok (t t' : Table) (h : coerceEnrollment t = .ok t') :
    ∃ c, lookup t "EnrollmentCount" = some c ∧
      t' = setCol t "EnrollmentCount" (toNumericCol c) := by
  unfold coerceEnrollment at h
  cases he : lookup t "EnrollmentCount" with
  | none => rw [he] at h; exact absurd h (by simp)
  | some c =>
    rw [he] at h
    simp only [Except.ok.injEq] at h
    exact ⟨c, rfl, h.symm⟩

theorem coerce_ok_ne (t t' : Table) (n : String) (h : coerceEnrollment t = .ok t')
    (hn : n ≠ "EnrollmentCount") : lookup t' n = lookup t n := by
  obtain ⟨c, _, ht⟩ := coerce_ok t t' h
  rw [ht, lookup_setCol_ne _ _ _ _ hn]

theorem lookup_fillNumeric (t : Table) (n : String) :
    lookup (fillNumeric t) n = (lookup t n).map colFillNum :=
  lookup_mapCols colFillNum t n

theorem fillModeCol_ok (vs ws : List (Option String)) (h : fillModeCol vs = .ok ws) :
    ws = modeFillList vs := by
  unfold fillModeCol at h
  by_cases hv : hasNone vs
  · rw [if_pos hv] at h
    cases hs : somes vs with
    | nil => rw [hs] at h; exact absurd h (by simp)
    | cons x xs =>
      rw [hs] at h
      simp only [Except.ok.injEq] at h
      exact h.symm
  · rw [if_neg hv] at h
    simp only [Except.ok.injEq] at h
    rw [← h]
    unfold modeFillList
    rw [if_neg hv]

theorem colModeStep_nonText_ok (c : ColVals) (h : ∀ vs, c ≠ .text vs) :
    colModeStep c = .ok c := by
  cases c with
  | num vs => rfl
  | date vs => rfl
  | text vs => exact absurd rfl (h vs)

theorem fillMode_ok_none (t t' : Table) (n : String) (h : fillMode t = .ok t')
    (hn : lookup t n = none) : lookup t' n = none :=
  traverseCols_ok_none colModeStep t t' n h hn

theorem fillMode_ok_some (t t' : Table) (n : String) (c : ColVals)
    (h : fillMode t = .ok t') (hn : lookup t n = some c) :
    ∃ c', colModeStep c = .ok c' ∧ lookup t' n = some c' :=
  traverseCols_ok_some colModeStep t t' n c h hn

theorem fillMode_ok_text (t t' : Table) (n : String) (vs : List (Option String))
    (h : fillMode t = .ok t') (hn : lookup t n = some (.text vs)) :
    lookup t' n = some (.text (modeFillList vs)) := by
  obtain ⟨c', hc, hl⟩ := fillMode_ok_some t t' n (.text vs) h hn
  simp only [colModeStep] at hc
  cases hf : fillModeCol vs with
  | error e => rw [hf] at hc; exact absurd hc (by simp [Except.map])
  | ok ws =>
    rw [hf] at hc
    simp only [Except.map, Except.ok.injEq] at hc
    rw [fillModeCol_ok vs ws hf] at hc
    rw [hl, ← hc]

theorem fillMode_ok_other (t t' : Table) (n : String) (c : ColVals)
    (h : fillMode t = .ok t') (hn : lookup t n = some c)
    (hc : ∀ vs, c ≠ .text vs) : lookup t' n = some c := by
  obtain ⟨c', hcs, hl⟩ := fillMode_ok_some t t' n c h hn
  rw [colModeStep_nonText_ok c hc] at hcs
  simp only [Except.ok.injEq] at hcs
  rw [hl, ← hcs]

theorem convertDateCol_ne (nm : String) (t : Table) (n : String) (h : n ≠ nm) :
    lookup (convertDateCol nm t) n = lookup t n := by
  unfold convertDateCol
  cases hl : lookup t nm with
  | none => rfl
  | some c => exact lookup_setCol_ne _ _ _ _ h

theorem convertDateCol_self (nm : String) (t : Table) :
    lookup (convertDateCol nm t) nm = (lookup t nm).map toDatetimeCol := by
  unfold convertDateCol
  cases hl : lookup t nm with
  | none => simp [hl]
  | some c => simp [lookup_setCol_self, hl]

theorem convertDates_ne (t : Table) (n : String) (h1 : n ≠ "StartDate")
    (h2 : n ≠ "CompletionDate") (h3 : n ≠ "PrimaryCompletionDate") :
    lookup (convertDates t) n = lookup t n := by
  unfold convertDates
  rw [convertDateCol_ne _ _ _ h3, convertDateCol_ne _ _ _ h2,
    convertDateCol_ne _ _ _ h1]

theorem convertDates_start (t : Table) :
    lookup (convertDates t) "StartDate" = (lookup t "StartDate").map toDatetimeCol := by
  unfold convertDates
  rw [convertDateCol_ne _ _ _ (by decide), convertDateCol_ne _ _ _ (by decide),
    convertDateCol_self]

theorem convertDates_completion (t : Table) :
    lookup (convertDates t) "CompletionDate" =
      (lookup t "CompletionDate").map toDatetimeCol := by
  unfold convertDates
  rw [convertDateCol_ne _ _ _ (by decide), convertDateCol_self,
    convertDateCol_ne _ _ _ (by decide)]

theorem addTemporal_ne (t : Table) (n : String) (h1 : n ≠ "start_year")
    (h2 : n ≠ "start_month") (h3 : n ≠ "start_quarter") :
    lookup (addTemporal t) n = lookup t n := by
  unfold addTemporal
  cases hl : lookup t "StartDate" with
  | none => rfl
  | some c =>
    cases c with
    | num vs => rfl
    | text vs => rfl
    | date ds =>
      rw [lookup_setCol_ne _ _ _ _ h3, lookup_setCol_ne _ _ _ _ h2,
        lookup_setCol_ne _ _ _ _ h1]

theorem addTemporal_vals (t : Table) (ds : List (Option CalDate))
    (h : lookup t "StartDate" = some (.date ds)) :
    lookup (addTemporal t) "start_year" =
        some (.num (ds.map (fun v => v.map (fun d => qOfInt d.year)))) ∧
      lookup (addTemporal t) "start_month" =
        some (.num (ds.map (fun v => v.map (fun d => qOfNat d.month)))) ∧
      lookup (addTemporal t) "start_quarter" =
        some (.num (ds.map (fun v => v.map (fun d => qOfNat ((d.month + 2) / 3))))) := by
  unfold addTemporal
  rw [h]
  refine ⟨?_, ?_, ?_⟩
  · rw [lookup_setCol_ne _ _ _ _ (by decide), lookup_setCol_ne _ _ _ _ (by decide),
      lookup_setCol_self]
  · rw [lookup_setCol_ne _ _ _ _ (by decide), lookup_setCol_self]
  · rw [lookup_setCol_self]

theorem addDuration_ok_ne (t t' : Table) (n : String) (h : addDuration t = .ok t')
    (hn : n ≠ "trial_duration_days") : lookup t' n = lookup t n := by
  unfold addDuration at h
  by_cases hd : hasCol t "trial_duration_days"
  · rw [if_pos hd] at h
    simp only [Except.ok.injEq] at h
    rw [← h]
  · rw [if_neg hd] at h
    cases hc : lookup t "CompletionDate" with
    | none =>
      rw [hc] at h
      simp only [Except.ok.injEq] at h
      rw [← h]
    | some cCol =>
      rw [hc] at h
      cases hs : lookup t "StartDate" with
      | none => rw [hs] at h; exact absurd h (by simp)
      | some sCol =>
        rw [hs] at h
        cases cCol with
        | num vs => exact absurd h (by simp)
        | text vs => exact absurd h (by simp)
        | date cs =>
          cases sCol with
          | num vs => exact absurd h (by simp)
          | text vs => exact absurd h (by simp)
          | date ss =>
            simp only [Except.ok.injEq] at h
            rw [← h, lookup_setCol_ne _ _ _ _ hn]

theorem addDuration_skip (t : Table) (hd : hasCol t "trial_duration_days" = true) :
    addDuration t = .ok t := by
  unfold addDuration
  rw [if_pos hd]

theorem addDuration_derived (t : Table) (cs ss : List (Option CalDate))
    (hd : hasCol t "trial_duration_days" = false)
    (hc : lookup t "CompletionDate" = some (.date cs))
    (hs : lookup t "StartDate" = some (.date ss)) :
    addDuration t = .ok (setCol t "trial_duration_days" (.num (durFill cs ss))) := by
  unfold addDuration
  rw [if_neg (by simp [hd]), hc, hs]

theorem addContainsFlag_ok_ne (src flag lit : String) (t t' : Table) (n : String)
    (h : addContainsFlag src flag lit t = .ok t') (hn : n ≠ flag) :
    lookup t' n = lookup t n := by
  unfold addContainsFlag at h
  cases hl : lookup t src with
  | none =>
    rw [hl] at h
    simp only [Except.ok.injEq] at h
    rw [← h]
  | some c =>
    rw [hl] at h
    dsimp only at h
    cases hi : containsIndicator c lit with
    | error e => rw [hi] at h; exact absurd h (by simp)
    | ok vs =>
      rw [hi] at h
      simp only [Except.ok.injEq] at h
      rw [← h, lookup_setCol_ne _ _ _ _ hn]

theorem containsIndicator_all01 (c : ColVals) (lit : String)
    (vs : List (Option ℚ)) (h : containsIndicator c lit = .ok vs) : all01 vs := by
  cases c with
  | text ws =>
    simp only [containsIndicator, Except.ok.injEq] at h
    intro q hq
    rw [← h] at hq
    obtain ⟨v, _, hv⟩ := List.mem_map.mp hq
    cases v with
    | none =>
      simp only at hv
      left
      exact (Option.some_inj.mp hv).symm
    | some s =>
      simp only at hv
      have := Option.some_inj.mp hv
      by_cases hc : strContainsB s lit
      · right; rw [← this, if_pos hc]
      · left; rw [← this, if_neg hc]
  | num ws => exact absurd h (by simp [containsIndicator])
  | date ws => exact absurd h (by simp [containsIndicator])

theorem eqIndicator_all01 (c : ColVals) (lit : String) : all01 (eqIndicator c lit) := by
  intro q hq
  cases c with
  | text ws =>
    simp only [eqIndicator] at hq
    obtain ⟨v, _, hv⟩ := List.mem_map.mp hq
    have := Option.some_inj.mp hv
    by_cases he : v = some lit
    · right; rw [← this, if_pos he]
    · left; rw [← this, if_neg he]
  | num ws =>
    simp only [eqIndicator] at hq
    obtain ⟨v, _, hv⟩ := List.mem_map.mp hq
    left; exact (Option.some_inj.mp hv).symm
  | date ws =>
    simp only [eqIndicator] at hq
    obtain ⟨v, _, hv⟩ := List.mem_map.mp hq
    left; exact (Option.some_inj.mp hv).symm

theorem addContainsFlag_ok_flag (src flag lit : String) (t t' : Table)
    (h : addContainsFlag src flag lit t = .ok t') :
    lookup t' flag = lookup t flag ∨
      ∃ vs, lookup t' flag = some (.num vs) ∧ all01 vs := by
  unfold addContainsFlag at h
  cases hl : lookup t src with
  | none =>
    rw [hl] at h
    simp only [Except.ok.injEq] at h
    left; rw [← h]
  | some c =>
    rw [hl] at h
    dsimp only at h
    cases hi : containsIndicator c lit with
    | error e => rw [hi] at h; exact absurd h (by simp)
    | ok vs =>
      rw [hi] at h
      simp only [Except.ok.injEq] at h
      right
      exact ⟨vs, by rw [← h, lookup_setCol_self], containsIndicator_all01 c lit vs hi⟩

theorem addSponsorFlag_ne (t : Table) (n : String) (hn : n ≠ "is_industry_sponsored") :
    lookup (addSponsorFlag t) n = lookup t n := by
  unfold addSponsorFlag
  cases hl : lookup t "LeadSponsorClass" with
  | none => rfl
  | some c => exact lookup_setCol_ne _ _ _ _ hn

theorem addSponsorFlag_flag (t : Table) :
    lookup (addSponsorFlag t) "is_industry_sponsored" =
        lookup t "is_industry_sponsored" ∨
      ∃ vs, lookup (addSponsorFlag t) "is_industry_sponsored" = some (.num vs) ∧
        all01 vs := by
  unfold addSponsorFlag
  cases hl : lookup t "LeadSponsorClass" with
  | none => left; rfl
  | some c =>
    right
    exact ⟨eqIndicator c "INDUSTRY", lookup_setCol_self _ _ _, eqIndicator_all01 c "INDUSTRY"⟩

theorem addIndicators_peel (t t' : Table) (h : addIndicators t = .ok t') :
    ∃ u1 u2 u3 u4 u5 u6 u7 u8 u9,
      addContainsFlag "Phase" "is_phase_1" "Phase 1" (addSponsorFlag t) = .ok u1 ∧
      addContainsFlag "Phase" "is_phase_2" "Phase 2" u1 = .ok u2 ∧
      addContainsFlag "Phase" "is_phase_3" "Phase 3" u2 = .ok u3 ∧
      addContainsFlag "Phase" "is_phase_4" "Phase 4" u3 = .ok u4 ∧
      addContainsFlag "StudyDesign" "is_randomized" "Randomized" u4 = .ok u5 ∧
      addContainsFlag "StudyDesign" "is_double_blind" "Double Blind" u5 = .ok u6 ∧
      addContainsFlag "StudyDesign" "is_single_blind" "Single Blind" u6 = .ok u7 ∧
      addContainsFlag "StudyDesign" "is_open_label" "Open Label" u7 = .ok u8 ∧
      addContainsFlag "LocationCountry" "is_multi_country" "," u8 = .ok u9 ∧
      addContainsFlag "LocationCountry" "has_us_sites" "United States" u9 = .ok t' := by
  unfold addIndicators at h
  obtain ⟨u9, h9, hL⟩ := exceptBind_ok _ _ _ h
  obtain ⟨u8, h8, h9'⟩ := exceptBind_ok _ _ _ h9
  obtain ⟨u7, h7, h8'⟩ := exceptBind_ok _ _ _ h8
  obtain ⟨u6, h6, h7'⟩ := exceptBind_ok _ _ _ h7
  obtain ⟨u5, h5, h6'⟩ := exceptBind_ok _ _ _ h6
  obtain ⟨u4, h4, h5'⟩ := exceptBind_ok _ _ _ h5
  obtain ⟨u3, h3, h4'⟩ := exceptBind_ok _ _ _ h4
  obtain ⟨u2, h2, h3'⟩ := exceptBind_ok _ _ _ h3
  obtain ⟨u1, h1, h2'⟩ := exceptBind_ok _ _ _ h2
  exact ⟨u1, u2, u3, u4, u5, u6, u7, u8, u9,
    h1, h2', h3', h4', h5', h6', h7', h8', h9', hL⟩

theorem addIndicators_ok_ne (t t' : Table) (n : String) (h : addIndicators t = .ok t')
    (hn : ¬ n ∈ indicatorNames) : lookup t' n = lookup t n := by
  simp only [indicatorNames, List.mem_cons, List.not_mem_nil, or_false, not_or] at hn
  obtain ⟨g1, g2, g3, g4, g5, g6, g7, g8, g9, g10, g11⟩ := hn
  obtain ⟨u1, u2, u3, u4, u5, u6, u7, u8, u9, h1, h2, h3, h4, h5, h6, h7, h8, h9, hL⟩ :=
    addIndicators_peel t t' h
  rw [addContainsFlag_ok_ne _ _ _ _ _ _ hL g11,
    addContainsFlag_ok_ne _ _ _ _ _ _ h9 g10,
    addContainsFlag_ok_ne _ _ _ _ _ _ h8 g9,
    addContainsFlag_ok_ne _ _ _ _ _ _ h7 g8,
    addContainsFlag_ok_ne _ _ _ _ _ _ h6 g7,
    addContainsFlag_ok_ne _ _ _ _ _ _ h5 g6,
    addContainsFlag_ok_ne _ _ _ _ _ _ h4 g5,
    addContainsFlag_ok_ne _ _ _ _ _ _ h3 g4,
    addContainsFlag_ok_ne _ _ _ _ _ _ h2 g3,
    addContainsFlag_ok_ne _ _ _ _ _ _ h1 g2,
    addSponsorFlag_ne t n g1]

theorem acf_G (src flag lit : String) (u u' : Table) (n : String)
    (h : addContainsFlag src flag lit u = .ok u')
    (hG : lookup u n = none ∨ ∃ vs, lookup u n = some (.num vs) ∧ all01 vs) :
    lookup u' n = none ∨ ∃ vs, lookup u' n = some (.num vs) ∧ all01 vs := by
  by_cases he : n = flag
  · subst he
    rcases addContainsFlag_ok_flag _ _ _ _ _ h with heq | hgood
    · rw [heq]; exact hG
    · right; exact hgood
  · rw [addContainsFlag_ok_ne _ _ _ _ _ _ h he]; exact hG

theorem sponsor_G (u : Table) (n : String)
    (hG : lookup u n = none ∨ ∃ vs, lookup u n = some (.num vs) ∧ all01 vs) :
    lookup (addSponsorFlag u) n = none ∨
      ∃ vs, lookup (addSponsorFlag u) n = some (.num vs) ∧ all01 vs := by
  by_cases he : n = "is_industry_sponsored"
  · subst he
    rcases addSponsorFlag_flag u with heq | hgood
    · rw [heq]; exact hG
    · right; exact hgood
  · rw [addSponsorFlag_ne u n he]; exact hG

theorem addIndicators_ok_G (t t' : Table) (n : String) (h : addIndicators t = .ok t')
    (hG : lookup t n = none ∨ ∃ vs, lookup t n = some (.num vs) ∧ all01 vs) :
    lookup t' n = none ∨ ∃ vs, lookup t' n = some (.num vs) ∧ all01 vs := by
  obtain ⟨u1, u2, u3, u4, u5, u6, u7, u8, u9, h1, h2, h3, h4, h5, h6, h7, h8, h9, hL⟩ :=
    addIndicators_peel t t' h
  exact acf_G _ _ _ _ _ _ hL (acf_G _ _ _ _ _ _ h9 (acf_G _ _ _ _ _ _ h8
    (acf_G _ _ _ _ _ _ h7 (acf_G _ _ _ _ _ _ h6 (acf_G _ _ _ _ _ _ h5
    (acf_G _ _ _ _ _ _ h4 (acf_G _ _ _ _ _ _ h3 (acf_G _ _ _ _ _ _ h2
    (acf_G _ _ _ _ _ _ h1 (sponsor_G t n hG))))))))))

theorem addLengthFor_ne (nm : String) (t : Table) (n : String)
    (hn : n ≠ nm ++ "_length") : lookup (addLengthFor nm t) n = lookup t n := by
  unfold addLengthFor
  cases hl : lookup t nm with
  | none => rfl
  | some c => exact lookup_setCol_ne _ _ _ _ hn

theorem addLengthFor_val (nm : String) (t : Table) (c : ColVals)
    (h : lookup t nm = some c) :
    lookup (addLengthFor nm t) (nm ++ "_length") = some (.num (lenCol c)) := by
  unfold addLengthFor
  rw [h]
  exact lookup_setCol_self _ _ _

theorem addTextLengths_ne (t : Table) (n : String) (h1 : n ≠ "BriefTitle_length")
    (h2 : n ≠ "BriefSummary_length") (h3 : n ≠ "DetailedDescription_length") :
    lookup (addTextLengths t) n = lookup t n := by
  unfold addTextLengths
  rw [addLengthFor_ne _ _ _ h3, addLengthFor_ne _ _ _ h2, addLengthFor_ne _ _ _ h1]

theorem addTarget_skip (t : Table) (h : hasCol t "completion_status" = true) :
    addTarget t = (t, t) := by
  unfold addTarget
  rw [if_pos h]

theorem addTarget_noStatus (t : Table) (h1 : hasCol t "completion_status" = false)
    (h2 : lookup t "OverallStatus" = none) : addTarget t = (t, t) := by
  unfold addTarget
  rw [if_neg (by simp [h1]), h2]

theorem addTarget_make (t : Table) (c : ColVals)
    (h1 : hasCol t "completion_status" = false)
    (h2 : lookup t "OverallStatus" = some c) :
    addTarget t =
      (setCol t "completion_status" (.num (eqIndicator c "Completed")),
       filterTable (setCol t "completion_status" (.num (eqIndicator c "Completed")))
         (isinMask c completedStatuses)) := by
  unfold addTarget
  rw [if_neg (by simp [h1]), h2]

theorem featureEngineer_ok (t c m : Table) (h : featureEngineer t = .ok (c, m)) :
    ∃ t1 t3 t6 t7, coerceEnrollment t = .ok t1 ∧ fillMode (fillNumeric t1) = .ok t3 ∧
      addDuration (addTemporal (convertDates t3)) = .ok t6 ∧ addIndicators t6 = .ok t7 ∧
      addTarget (addTextLengths t7) = (c, m) := by
  unfold featureEngineer at h
  cases h1 : coerceEnrollment t with
  | error e => rw [h1] at h; exact absurd h (by simp)
  | ok t1 =>
    rw [h1] at h
    dsimp only at h
    cases h3 : fillMode (fillNumeric t1) with
    | error e => rw [h3] at h; exact absurd h (by simp)
    | ok t3 =>
      rw [h3] at h
      dsimp only at h
      cases h6 : addDuration (addTemporal (convertDates t3)) with
      | error e => rw [h6] at h; exact absurd h (by simp)
      | ok t6 =>
        rw [h6] at h
        dsimp only at h
        cases h7 : addIndicators t6 with
        | error e => rw [h7] at h; exact absurd h (by simp)
        | ok t7 =>
          rw [h7] at h
          simp only [Except.ok.injEq] at h
          exact ⟨t1, t3, t6, t7, rfl, h3, h6, h7, h⟩

/-! Lemmas about the median, the mode, and the imputation fills. -/

theorem qHalfSum_nonneg (a b : ℚ) (ha : 0 ≤ a) (hb : 0 ≤ b) : 0 ≤ qHalfSum a b := by
  unfold qHalfSum
  apply Rat.divInt_nonneg
  · have hna : 0 ≤ a.num := Rat.num_nonneg.mpr ha
    have hnb : 0 ≤ b.num := Rat.num_nonneg.mpr hb
    have hda : (0 : Int) ≤ (a.den : Int) := Int.ofNat_nonneg a.den
    have hdb : (0 : Int) ≤ (b.den : Int) := Int.ofNat_nonneg b.den
    exact add_nonneg (mul_nonneg hna hdb) (mul_nonneg hnb hda)
  · have hda : (0 : Int) ≤ (a.den : Int) := Int.ofNat_nonneg a.den
    have hdb : (0 : Int) ≤ (b.den : Int) := Int.ofNat_nonneg b.den
    exact mul_nonneg (mul_nonneg (by norm_num) hda) hdb

theorem mem_insertAsc (x a : ℚ) (l : List ℚ) :
    x ∈ insertAsc a l ↔ x = a ∨ x ∈ l := by
  induction l with
  | nil => simp [insertAsc]
  | cons y ys ih =>
    unfold insertAsc
    by_cases h : a < y
    · rw [if_pos h]
      simp
    · rw [if_neg h]
      simp only [List.mem_cons, ih]
      tauto

theorem mem_sortAsc (x : ℚ) (l : List ℚ) : x ∈ sortAsc l ↔ x ∈ l := by
  induction l with
  | nil => simp [sortAsc]
  | cons y ys ih =>
    unfold sortAsc
    rw [mem_insertAsc]
    simp [ih]

theorem mem_somes_iff {α : Type} (x : α) (vs : List (Option α)) :
    x ∈ somes vs ↔ some x ∈ vs := by
  induction vs with
  | nil => simp [somes]
  | cons v rest ih =>
    cases v with
    | none => simp [somes, ih]
    | some a => simp [somes, List.mem_cons, ih]

theorem getD_mem_of_lt (l : List ℚ) (i : Nat) (d : ℚ) (h : i < l.length) :
    l.getD i d ∈ l := by
  induction l generalizing i with
  | nil => simp at h
  | cons x xs ih =>
    cases i with
    | zero => simp
    | succ j =>
      simp only [List.getD_cons_succ]
      exact List.mem_cons.mpr (Or.inr (ih j (by simpa using Nat.lt_of_succ_lt_succ h)))

theorem medianOfSorted_nonneg (l : List ℚ) (h0 : ∀ x ∈ l, 0 ≤ x) (m : ℚ)
    (h : medianOfSorted l = some m) : 0 ≤ m := by
  cases l with
  | nil => simp [medianOfSorted] at h
  | cons x xs =>
    simp only [medianOfSorted] at h
    by_cases hodd : (x :: xs).length % 2 = 1
    · rw [if_pos hodd] at h
      rw [← Option.some_inj.mp h]
      exact h0 _ (getD_mem_of_lt _ _ _ (Nat.div_lt_self (by simp) (by norm_num)))
    · rw [if_neg hodd] at h
      rw [← Option.some_inj.mp h]
      have hlen : 1 ≤ (x :: xs).length := by simp
      apply qHalfSum_nonneg
      · exact h0 _ (getD_mem_of_lt _ _ _
          (lt_of_le_of_lt (Nat.sub_le _ _) (Nat.div_lt_self (by omega) (by norm_num))))
      · exact h0 _ (getD_mem_of_lt _ _ _ (Nat.div_lt_self (by omega) (by norm_num)))

theorem medianOpt_nonneg (vs : List (Option ℚ)) (h0 : ∀ q : ℚ, some q ∈ vs → 0 ≤ q)
    (m : ℚ) (hm : medianOpt vs = some m) : 0 ≤ m := by
  apply medianOfSorted_nonneg (sortAsc (somes vs)) _ m hm
  intro x hx
  exact h0 x ((mem_somes_iff x vs).mp ((mem_sortAsc x (somes vs)).mp hx))

theorem insertAsc_ne_nil (a : ℚ) (l : List ℚ) : insertAsc a l ≠ [] := by
  cases l with
  | nil => simp [insertAsc]
  | cons y ys =>
    unfold insertAsc
    by_cases h : a < y
    · rw [if_pos h]; simp
    · rw [if_neg h]; simp

theorem sortAsc_eq_nil_iff (l : List ℚ) : sortAsc l = [] ↔ l = [] := by
  cases l with
  | nil => simp [sortAsc]
  | cons y ys =>
    unfold sortAsc
    simp only [iff_false, List.cons_ne_nil, iff_false]
    exact fun h => insertAsc_ne_nil y (sortAsc ys) h

theorem medianOpt_isSome (vs : List (Option ℚ)) (h : somes vs ≠ []) :
    ∃ m, medianOpt vs = some m := by
  unfold medianOpt
  cases hs : sortAsc (somes vs) with
  | nil => exact absurd ((sortAsc_eq_nil_iff (somes vs)).mp hs) h
  | cons x xs =>
    unfold medianOfSorted
    by_cases hodd : (x :: xs).length % 2 = 1
    · rw [if_pos hodd]; exact ⟨_, rfl⟩
    · rw [if_neg hodd]; exact ⟨_, rfl⟩

theorem medianOpt_none_of_nil (vs : List (Option ℚ)) (h : somes vs = []) :
    medianOpt vs = none := by
  unfold medianOpt
  rw [h]
  rfl

theorem map_or_none (xs : List (Option ℚ)) :
    xs.map (fun v => v.or none) = xs := by
  induction xs with
  | nil => rfl
  | cons v rest ih =>
    cases v with
    | none => simp [ih]
    | some a => simp [ih]

theorem hasNone_map_or_some (xs : List (Option ℚ)) (m : ℚ) :
    hasNone (xs.map (fun v => v.or (some m))) = false := by
  induction xs with
  | nil => rfl
  | cons v rest ih =>
    cases v with
    | none => simpa [hasNone] using ih
    | some a => simpa [hasNone] using ih

theorem fillNumCol_of_filled (xs : List (Option ℚ)) :
    fillNumCol (xs.map (fun v => v.or (medianOpt xs))) =
      xs.map (fun v => v.or (medianOpt xs)) := by
  cases hm : medianOpt xs with
  | some m =>
    unfold fillNumCol
    rw [if_neg (by rw [hasNone_map_or_some]; simp)]
  | none =>
    rw [map_or_none]
    unfold fillNumCol
    by_cases hn : hasNone xs = true
    · rw [if_pos hn, hm, map_or_none]
    · rw [if_neg hn]

theorem fillNumCol_idem (vs : List (Option ℚ)) :
    fillNumCol (fillNumCol vs) = fillNumCol vs := by
  by_cases hn : hasNone vs
  · have h1 : fillNumCol vs = vs.map (fun v => v.or (medianOpt vs)) := by
      unfold fillNumCol; rw [if_pos hn]
    rw [h1, fillNumCol_of_filled]
  · have h1 : fillNumCol vs = vs := by
      unfold fillNumCol; rw [if_neg hn]
    rw [h1, h1]

theorem fillNumCol_durFill (cs ss : List (Option CalDate)) :
    fillNumCol (durFill cs ss) = durFill cs ss := by
  unfold durFill
  exact fillNumCol_of_filled (validDurs cs ss)

theorem hasNone_map_some {α : Type} (xs : List (Option α)) (f : Option α → α) :
    hasNone (xs.map (fun v => some (f v))) = false := by
  induction xs with
  | nil => rfl
  | cons v rest ih => simpa [hasNone] using ih

theorem fillModeCol_ok_hasNone (vs ws : List (Option String))
    (h : fillModeCol vs = .ok ws) : hasNone ws = false := by
  have hws := fillModeCol_ok vs ws h
  subst hws
  by_cases hn : hasNone vs = true
  · unfold modeFillList
    rw [if_pos hn]
    exact hasNone_map_some vs _
  · unfold modeFillList
    rw [if_neg hn]
    simpa using hn

theorem fillModeCol_of_noNone (vs : List (Option String)) (h : hasNone vs = false) :
    fillModeCol vs = .ok vs := by
  unfold fillModeCol
  rw [if_neg (by simp [h])]

theorem modeFillList_of_noNone (vs : List (Option String)) (h : hasNone vs = false) :
    modeFillList vs = vs := by
  unfold modeFillList
  rw [if_neg (by simp [h])]

theorem validDurs_nonneg (cs ss : List (Option CalDate)) (q : ℚ)
    (h : some q ∈ validDurs cs ss) : 0 ≤ q := by
  unfold validDurs at h
  obtain ⟨v, _, hv⟩ := List.mem_map.mp h
  cases v with
  | none => simp at hv
  | some d =>
    simp only at hv
    by_cases hd : d < 0
    · rw [if_pos hd] at hv; simp at hv
    · rw [if_neg hd] at hv
      rw [← Option.some_inj.mp hv]
      exact le_of_not_lt hd

theorem durFill_nonneg (cs ss : List (Option CalDate)) (q : ℚ)
    (h : some q ∈ durFill cs ss) : 0 ≤ q := by
  unfold durFill at h
  obtain ⟨v, hvmem, hv⟩ := List.mem_map.mp h
  cases v with
  | none =>
    simp only [Option.or] at hv
    exact medianOpt_nonneg _ (validDurs_nonneg cs ss) q hv
  | some d =>
    simp only [Option.or] at hv
    rw [← Option.some_inj.mp hv]
    exact validDurs_nonneg cs ss d hvmem

theorem map_or_some_eq_map_getD (vs : List (Option ℚ)) (m : ℚ) :
    vs.map (fun v => v.or (some m)) = vs.map (fun v => some (v.getD m)) := by
  induction vs with
  | nil => rfl
  | cons v rest ih =>
    simp only [List.map_cons]
    rw [ih]
    congr 1
    cases v with
    | none => rfl
    | some a => rfl

theorem map_getD_of_noNone (vs : List (Option ℚ)) (m : ℚ) (h : hasNone vs = false) :
    vs.map (fun v => some (v.getD m)) = vs := by
  induction vs with
  | nil => rfl
  | cons v rest ih =>
    cases v with
    | none => simp [hasNone] at h
    | some a =>
      simp only [List.map_cons, Option.getD_some]
      rw [ih (by simpa [hasNone] using h)]

theorem somes_ne_nil_of_mem {α : Type} (x : α) (vs : List (Option α))
    (h : some x ∈ vs) : somes vs ≠ [] := by
  intro he
  rw [← mem_somes_iff] at h
  rw [he] at h
  exact absurd h (List.not_mem_nil x)

theorem fillNumCol_spec (vs : List (Option ℚ)) (m : ℚ) (hm : medianOpt vs = some m) :
    fillNumCol vs = vs.map (fun v => some (v.getD m)) := by
  unfold fillNumCol
  by_cases hn : hasNone vs = true
  · rw [if_pos hn, hm, map_or_some_eq_map_getD]
  · rw [if_neg hn, map_getD_of_noNone vs m (by simpa using hn)]

/-! Lemmas about the mode scan. -/

theorem countStr_zero_of_not_mem (l : List String) (s : String) (h : ¬ s ∈ l) :
    countStr l s = 0 := by
  induction l with
  | nil => rfl
  | cons x rest ih =>
    simp only [countStr]
    rw [if_neg (fun he => h (by rw [← he]; exact List.mem_cons_self x rest)),
      ih (fun hm => h (List.mem_cons.mpr (Or.inr hm)))]

theorem pickMode_ge_start (l cs : List String) (best : String) :
    countStr l best ≤ countStr l (pickMode l cs best) := by
  induction cs generalizing best with
  | nil => exact le_refl _
  | cons c rest ih =>
    simp only [pickMode]
    by_cases h1 : countStr l best < countStr l c
    · rw [if_pos h1]
      exact le_trans (le_of_lt h1) (ih c)
    · rw [if_neg h1]
      by_cases h2 : countStr l c < countStr l best
      · rw [if_pos h2]; exact ih best
      · rw [if_neg h2]
        have he : countStr l c = countStr l best := by omega
        by_cases h3 : strLtB c best = true
        · rw [if_pos h3]
          calc countStr l best = countStr l c := he.symm
            _ ≤ _ := ih c
        · rw [if_neg h3]; exact ih best

theorem pickMode_ge_mem (l cs : List String) (best c : String) (h : c ∈ cs) :
    countStr l c ≤ countStr l (pickMode l cs best) := by
  induction cs generalizing best with
  | nil => simp at h
  | cons c' rest ih =>
    rcases List.mem_cons.mp h with he | hm
    · subst he
      simp only [pickMode]
      by_cases h1 : countStr l best < countStr l c
      · rw [if_pos h1]; exact pickMode_ge_start l rest c
      · rw [if_neg h1]
        by_cases h2 : countStr l c < countStr l best
        · rw [if_pos h2]
          exact le_trans (le_of_lt h2) (pickMode_ge_start l rest best)
        · rw [if_neg h2]
          have he2 : countStr l c = countStr l best := by omega
          by_cases h3 : strLtB c best = true
          · rw [if_pos h3]; exact pickMode_ge_start l rest c
          · rw [if_neg h3]
            rw [he2]
            exact pickMode_ge_start l rest best
    · simp only [pickMode]
      by_cases h1 : countStr l best < countStr l c'
      · rw [if_pos h1]; exact ih c' hm
      · rw [if_neg h1]
        by_cases h2 : countStr l c' < countStr l best
        · rw [if_pos h2]; exact ih best hm
        · rw [if_neg h2]
          by_cases h3 : strLtB c' best = true
          · rw [if_pos h3]; exact ih c' hm
          · rw [if_neg h3]; exact ih best hm

theorem modeValD_most_frequent (vs : List (Option String)) (s : String) :
    countStr (somes vs) s ≤ countStr (somes vs) (modeValD vs) := by
  unfold modeValD
  cases hs : somes vs with
  | nil => simp [countStr]
  | cons x xs =>
    by_cases hm : s ∈ x :: xs
    · rcases List.mem_cons.mp hm with he | hmm
      · subst he; exact pickMode_ge_start _ xs s
      · exact pickMode_ge_mem _ xs x s hmm
    · rw [countStr_zero_of_not_mem _ s hm]
      exact Nat.zero_le _

/-! Lemmas about the model-selection sort. -/

theorem sortedByKey_tail (y : String × ℚ) (l : List (String × ℚ))
    (h : sortedByKey (y :: l)) : sortedByKey l := by
  cases l with
  | nil => trivial
  | cons z zs => exact h.2

theorem sortedByKey_head_le_last (y : String × ℚ) (l : List (String × ℚ))
    (h : sortedByKey (y :: l)) (b : String × ℚ) (hb : (y :: l).getLast? = some b) :
    y.2 ≤ b.2 := by
  induction l generalizing y with
  | nil =>
    rw [List.getLast?_singleton] at hb
    rw [← Option.some_inj.mp hb]
  | cons z zs ih =>
    rw [List.getLast?_cons_cons] at hb
    exact le_trans h.1 (ih z h.2 hb)

theorem sortedByKey_insert (x : String × ℚ) (l : List (String × ℚ))
    (h : sortedByKey l) : sortedByKey (insertByKey x l) := by
  induction l with
  | nil => trivial
  | cons y ys ih =>
    unfold insertByKey
    by_cases hc : x.2 < y.2
    · rw [if_pos hc]
      exact ⟨le_of_lt hc, h⟩
    · rw [if_neg hc]
      have hys := sortedByKey_tail y ys h
      have hins := ih hys
      cases ys with
      | nil => exact ⟨le_of_not_lt hc, trivial⟩
      | cons z zs =>
        unfold insertByKey
        by_cases hc2 : x.2 < z.2
        · rw [if_pos hc2]
          exact ⟨le_of_not_lt hc, le_of_lt hc2, h.2⟩
        · rw [if_neg hc2]
          refine ⟨h.1, ?_⟩
          unfold insertByKey at hins
          rw [if_neg hc2] at hins
          exact hins

theorem getLast?_insertByKey (x : String × ℚ) (acc : List (String × ℚ))
    (hs : sortedByKey acc) :
    (insertByKey x acc).getLast? =
      some (match acc.getLast? with
            | none => x
            | some b => if x.2 < b.2 then b else x) := by
  induction acc with
  | nil => rfl
  | cons y ys ih =>
    unfold insertByKey
    by_cases hc : x.2 < y.2
    · rw [if_pos hc]
      cases hb : (y :: ys).getLast? with
      | none =>
        exact absurd hb (by
          cases ys with
          | nil => simp [List.getLast?_singleton]
          | cons z zs => rw [List.getLast?_cons_cons]; simp [List.getLast?_isSome])
      | some b =>
        rw [List.getLast?_cons_cons, hb]
        have hxb : x.2 < b.2 := lt_of_lt_of_le hc (sortedByKey_head_le_last y ys hs b hb)
        show some b = some (if x.2 < b.2 then b else x)
        rw [if_pos hxb]
    · rw [if_neg hc]
      cases ys with
      | nil =>
        rw [show insertByKey x ([] : List (String × ℚ)) = [x] from rfl]
        rw [List.getLast?_cons_cons, List.getLast?_singleton, List.getLast?_singleton]
        show some x = some (if x.2 < y.2 then y else x)
        rw [if_neg hc]
      | cons z zs =>
        have hzs := sortedByKey_tail y (z :: zs) hs
        obtain ⟨w, ws, hw⟩ : ∃ w ws, insertByKey x (z :: zs) = w :: ws := by
          unfold insertByKey
          by_cases hc2 : x.2 < z.2
          · rw [if_pos hc2]; exact ⟨_, _, rfl⟩
          · rw [if_neg hc2]; exact ⟨_, _, rfl⟩
        rw [hw, List.getLast?_cons_cons, ← hw, ih hzs, List.getLast?_cons_cons]

theorem getLast?_foldl_insert (rows : List (String × ℚ)) (acc : List (String × ℚ))
    (hs : sortedByKey acc) :
    (rows.foldl (fun a x => insertByKey x a) acc).getLast? =
      rows.foldl scanBest acc.getLast? := by
  induction rows generalizing acc with
  | nil => rfl
  | cons x rest ih =>
    simp only [List.foldl_cons]
    rw [ih (insertByKey x acc) (sortedByKey_insert x acc hs)]
    congr 1
    rw [getLast?_insertByKey x acc hs]
    cases acc.getLast? with
    | none => rfl
    | some b =>
      simp only [scanBest]
      by_cases hc : x.2 < b.2
      · rw [if_pos hc, if_pos hc]
      · rw [if_neg hc, if_neg hc]

theorem selectBest_eq_lastArgmax (rows : List (String × ℚ)) :
    selectBest rows = (lastArgmax rows).map Prod.fst := by
  unfold selectBest sortValsDesc sortByKeyAsc lastArgmax
  rw [List.head?_reverse]
  rw [getLast?_foldl_insert rows [] trivial]
  rfl

theorem scanBest_acc_isSome (rows : List (String × ℚ)) (b : String × ℚ) :
    (rows.foldl scanBest (some b)).isSome = true := by
  induction rows generalizing b with
  | nil => rfl
  | cons x rest ih =>
    simp only [List.foldl_cons, scanBest]
    by_cases hc : x.2 < b.2
    · rw [if_pos hc]; exact ih b
    · rw [if_neg hc]; exact ih x

theorem lastArgmax_isSome (rows : List (String × ℚ)) (h : rows ≠ []) :
    (lastArgmax rows).isSome = true := by
  cases rows with
  | nil => exact absurd rfl h
  | cons x rest =>
    unfold lastArgmax
    simp only [List.foldl_cons, scanBest]
    exact scanBest_acc_isSome rest x

theorem scanBest_acc_spec (rows : List (String × ℚ)) (b p : String × ℚ)
    (h : rows.foldl scanBest (some b) = some p) :
    b.2 ≤ p.2 ∧ ((p = b ∧ ∀ x ∈ rows, x.2 < b.2) ∨
      ∃ pre suf, rows = pre ++ p :: suf ∧ (∀ x ∈ pre, x.2 ≤ p.2) ∧
        (∀ x ∈ suf, x.2 < p.2)) := by
  induction rows generalizing b with
  | nil =>
    simp only [List.foldl_nil, Option.some_inj] at h
    subst h
    exact ⟨le_refl _, Or.inl ⟨rfl, by simp⟩⟩
  | cons x rest ih =>
    simp only [List.foldl_cons, scanBest] at h
    by_cases hc : x.2 < b.2
    · rw [if_pos hc] at h
      obtain ⟨hle, hcase⟩ := ih b h
      refine ⟨hle, ?_⟩
      rcases hcase with ⟨hpb, hall⟩ | ⟨pre, suf, hsplit, hpre, hsuf⟩
      · exact Or.inl ⟨hpb, fun y hy => by
          rcases List.mem_cons.mp hy with hy1 | hy2
          · rw [hy1]; exact hc
          · exact hall y hy2⟩
      · exact Or.inr ⟨x :: pre, suf, by rw [hsplit, List.cons_append], fun y hy => by
          rcases List.mem_cons.mp hy with hy1 | hy2
          · rw [hy1]; exact le_trans (le_of_lt hc) hle
          · exact hpre y hy2, hsuf⟩
    · rw [if_neg hc] at h
      obtain ⟨hle, hcase⟩ := ih x h
      have hbx : b.2 ≤ x.2 := le_of_not_lt hc
      refine ⟨le_trans hbx hle, ?_⟩
      rcases hcase with ⟨hpx, hall⟩ | ⟨pre, suf, hsplit, hpre, hsuf⟩
      · exact Or.inr ⟨[], rest, by rw [hpx]; simp, by simp, by rw [hpx]; exact hall⟩
      · exact Or.inr ⟨x :: pre, suf, by rw [hsplit, List.cons_append], fun y hy => by
          rcases List.mem_cons.mp hy with hy1 | hy2
          · rw [hy1]; exact hle
          · exact hpre y hy2, hsuf⟩

theorem lastArgmax_spec (rows : List (String × ℚ)) (p : String × ℚ)
    (h : lastArgmax rows = some p) :
    ∃ pre suf, rows = pre ++ p :: suf ∧ (∀ x ∈ pre, x.2 ≤ p.2) ∧
      (∀ x ∈ suf, x.2 < p.2) := by
  cases rows with
  | nil => simp [lastArgmax] at h
  | cons x rest =>
    unfold lastArgmax at h
    simp only [List.foldl_cons, scanBest] at h
    obtain ⟨hle, hcase⟩ := scanBest_acc_spec rest x p h
    rcases hcase with ⟨hpx, hall⟩ | ⟨pre, suf, hsplit, hpre, hsuf⟩
    · exact ⟨[], rest, by rw [hpx]; simp, by simp, by rw [hpx]; exact hall⟩
    · exact ⟨x :: pre, suf, by rw [hsplit, List.cons_append], fun y hy => by
        rcases List.mem_cons.mp hy with hy1 | hy2
        · rw [hy1]; exact hle
        · exact hpre y hy2, hsuf⟩

/-! Remaining small helpers. -/

theorem getD_map_of_lt {α β : Type} (f : α → β) (xs : List α) (i : Nat)
    (da : α) (db : β) (hi : i < xs.length) :
    (xs.map f).getD i db = f (xs.getD i da) := by
  induction xs generalizing i with
  | nil => simp at hi
  | cons x rest ih =>
    cases i with
    | zero => simp
    | succ j =>
      simp only [List.map_cons, List.getD_cons_succ]
      exact ih j (by simpa using Nat.lt_of_succ_lt_succ hi)

theorem getD_map_gen {α β : Type} (f : α → β) (xs : List α) (i : Nat)
    (da : α) (db : β) (hf : f da = db) :
    (xs.map f).getD i db = f (xs.getD i da) := by
  induction xs generalizing i with
  | nil => simp [hf.symm]
  | cons x rest ih =>
    cases i with
    | zero => simp
    | succ j =>
      simp only [List.map_cons, List.getD_cons_succ]
      exact ih j

theorem length_modeFillList (vs : List (Option String)) :
    (modeFillList vs).length = vs.length := by
  unfold modeFillList
  by_cases h : hasNone vs = true
  · rw [if_pos h, List.length_map]
  · rw [if_neg h]

theorem toDatetimeCol_date_shape (c : ColVals) :
    ∃ ds, toDatetimeCol c = .date ds := by
  cases c with
  | num vs => exact ⟨_, rfl⟩
  | text vs => exact ⟨_, rfl⟩
  | date vs => exact ⟨_, rfl⟩

theorem addTarget_fst_ne (u : Table) (n : String) (hn : n ≠ "completion_status") :
    lookup (addTarget u).1 n = lookup u n := by
  unfold addTarget
  by_cases hcs : hasCol u "completion_status" = true
  · rw [if_pos hcs]
  · rw [if_neg hcs]
    cases ho : lookup u "OverallStatus" with
    | none => rfl
    | some c0 => exact lookup_setCol_ne _ _ _ _ hn

theorem addTarget_snd (u : Table) (n : String) (hn : n ≠ "completion_status") :
    lookup (addTarget u).2 n = lookup u n ∨
      ∃ mask, lookup (addTarget u).2 n = (lookup u n).map (maskFilterCol mask) := by
  unfold addTarget
  by_cases hcs : hasCol u "completion_status" = true
  · rw [if_pos hcs]; left; rfl
  · rw [if_neg hcs]
    cases ho : lookup u "OverallStatus" with
    | none => left; rfl
    | some c0 =>
      right
      refine ⟨isinMask c0 completedStatuses, ?_⟩
      show lookup (filterTable _ _) n = _
      rw [filterTable, lookup_mapCols, lookup_setCol_ne _ _ _ _ hn]

theorem hasNone_true_of_getD {α : Type} (vs : List (Option α)) (i : Nat)
    (hi : i < vs.length) (h : vs.getD i none = none) : hasNone vs = true := by
  induction vs generalizing i with
  | nil => simp at hi
  | cons v rest ih =>
    cases i with
    | zero =>
      simp only [List.getD_cons_zero] at h
      subst h
      rfl
    | succ j =>
      simp only [List.getD_cons_succ] at h
      have := ih j (by simpa using Nat.lt_of_succ_lt_succ hi) h
      cases v with
      | none => rfl
      | some a => simpa [hasNone] using this

theorem postIndicators_preserve (t6 t7 c m : Table) (n : String)
    (h7 : addIndicators t6 = .ok t7)
    (htar : addTarget (addTextLengths t7) = (c, m))
    (hn1 : ¬ n ∈ indicatorNames) (hn2 : n ≠ "BriefTitle_length")
    (hn3 : n ≠ "BriefSummary_length") (hn4 : n ≠ "DetailedDescription_length")
    (hn5 : n ≠ "completion_status") :
    lookup c n = lookup t6 n := by
  have e1 := addIndicators_ok_ne t6 t7 n h7 hn1
  have e2 := addTextLengths_ne t7 n hn2 hn3 hn4
  have e3 := addTarget_fst_ne (addTextLengths t7) n hn5
  rw [htar] at e3
  rw [e3, e2, e1]

theorem selectBest_spec (rows : List (String × ℚ)) (h : rows ≠ []) :
    (selectBest rows).isSome = true ∧
      ∀ nm, selectBest rows = some nm →
        ∃ f pre suf, rows = pre ++ (nm, f) :: suf ∧
          (∀ x ∈ pre, x.2 ≤ f) ∧ (∀ x ∈ suf, x.2 < f) := by
  constructor
  · rw [selectBest_eq_lastArgmax]
    cases hp : lastArgmax rows with
    | none =>
      have := lastArgmax_isSome rows h
      rw [hp] at this
      exact absurd this (by simp)
    | some p => rfl
  · intro nm hnm
    rw [selectBest_eq_lastArgmax] at hnm
    cases hp : lastArgmax rows with
    | none => rw [hp] at hnm; exact absurd hnm (by simp)
    | some p =>
      rw [hp] at hnm
      have hnm' : p.1 = nm := Option.some_inj.mp (by simpa using hnm)
      obtain ⟨pre, suf, hsplit, hpre, hsuf⟩ := lastArgmax_spec rows p hp
      refine ⟨p.2, pre, suf, ?_, hpre, hsuf⟩
      rw [← hnm']
      rw [show ((p.1, p.2) : String × ℚ) = p from rfl]
      exact hsplit

/-! Claim theorems. -/

/-- C7 (code_bug record): the stage raises FileNotFoundError when no snapshot
file matches the glob, as claimed; but with a snapshot present whose table has
a CompletionDate column and no StartDate column, the duration block's
unguarded `df_clean['StartDate']` access raises KeyError, so the absence of an
optional column does abort the run, contradicting the claim. -/
theorem stage_error_conditions :
    runStage [] = .error "FileNotFoundError: No processed data files found" ∧
      runStage [tableNoStart] = .error "KeyError: StartDate" ∧
      hasCol tableNoStart "CompletionDate" = true ∧
      hasCol tableNoStart "StartDate" = false := by
  exact ⟨rfl, by decide, by decide, by decide⟩

/-- C9: the training stage's classification frame keeps exactly the rows
whose overall_status is Completed or Terminated, and the regression frame
keeps exactly the rows whose overall_status is Completed: each kept column is
the source column filtered by the corresponding row mask, and the masks hold
exactly at those statuses. -/
theorem training_filters_exact (t : Table) (vs : List (Option String))
    (h : lookup t "overall_status" = some (.text vs)) :
    dfClassification t =
        .ok (filterTable t (isinMask (.text vs) ["Completed", "Terminated"])) ∧
      dfRegression t = .ok (filterTable t (eqMask (.text vs) "Completed")) ∧
      (∀ i : Nat, (isinMask (.text vs) ["Completed", "Terminated"]).getD i false = true ↔
        vs.getD i none = some "Completed" ∨ vs.getD i none = some "Terminated") ∧
      (∀ i : Nat, (eqMask (.text vs) "Completed").getD i false = true ↔
        vs.getD i none = some "Completed") ∧
      (∀ n c, lookup t n = some c →
        lookup (filterTable t (isinMask (.text vs) ["Completed", "Terminated"])) n =
            some (maskFilterCol (isinMask (.text vs) ["Completed", "Terminated"]) c) ∧
          lookup (filterTable t (eqMask (.text vs) "Completed")) n =
            some (maskFilterCol (eqMask (.text vs) "Completed") c)) := by
  refine ⟨?_, ?_, ?_, ?_, ?_⟩
  · unfold dfClassification
    rw [h]
  · unfold dfRegression
    rw [h]
  · intro i
    show ((vs.map fun v =>
      match v with
      | some s => decide (s ∈ ["Completed", "Terminated"])
      | none => false).getD i false = true) ↔ _
    rw [getD_map_gen _ vs i none false rfl]
    cases vs.getD i none with
    | none => simp
    | some s => simp
  · intro i
    show ((vs.map fun v => decide (v = some "Completed")).getD i false = true) ↔ _
    rw [getD_map_gen _ vs i none false (by simp)]
    simp
  · intro n c hc
    constructor
    · rw [filterTable, lookup_mapCols, hc]; rfl
    · rw [filterTable, lookup_mapCols, hc]; rfl

/-- C9 witness: on a table with statuses Completed, Terminated, Suspended,
Withdrawn, Recruiting, the classification frame is exactly the first two rows
and the regression frame exactly the first row. -/
theorem training_filters_witness :
    dfClassification tableModeling = .ok
        [("nct_id", .text [some "a", some "b"]),
         ("overall_status", .text [some "Completed", some "Terminated"]),
         ("duration_days", .num [some 100, some 50])] ∧
      dfRegression tableModeling = .ok
        [("nct_id", .text [some "a"]),
         ("overall_status", .text [some "Completed"]),
         ("duration_days", .num [some 100])] := by
  have h := training_filters_exact tableModeling
    [some "Completed", some "Terminated", some "Suspended", some "Withdrawn",
     some "Recruiting"] rfl
  exact ⟨by rw [h.1]; decide, by rw [h.2.1]; decide⟩

/-- C4 counterexample: with two candidates tied on f1_score, the selection
returns the second-enumerated candidate, not the first. -/
theorem selection_tie_counterexample :
    bestClassificationModelName tiedClfRows = some "RandomForest" ∧
      ("RandomForest" : String) ≠ "LogisticRegression" := by
  exact ⟨by decide, by decide⟩

/-- C4 (amended): the classification task selects a candidate with the
highest f1_score and the regression task one with the highest r2_score, but a
tie on the selection metric is broken toward the last-enumerated tied
candidate (pandas' descending sort reverses a stable ascending argsort; on
candidate sets this small numpy's default sort is an insertion sort and hence
stable). -/
theorem selection_highest_last_tie
    (rowsC : List (String × ClfMetrics)) (rowsR : List (String × RegMetrics))
    (hC : rowsC ≠ []) (hR : rowsR ≠ []) :
    ((bestClassificationModelName rowsC).isSome = true ∧
      ∀ nm, bestClassificationModelName rowsC = some nm →
        ∃ f1 pre suf,
          rowsC.map (fun p => (p.1, p.2.f1_score)) = pre ++ (nm, f1) :: suf ∧
          (∀ x ∈ pre, x.2 ≤ f1) ∧ (∀ x ∈ suf, x.2 < f1)) ∧
    ((bestRegressionModelName rowsR).isSome = true ∧
      ∀ nm, bestRegressionModelName rowsR = some nm →
        ∃ r2 pre suf,
          rowsR.map (fun p => (p.1, p.2.r2_score)) = pre ++ (nm, r2) :: suf ∧
          (∀ x ∈ pre, x.2 ≤ r2) ∧ (∀ x ∈ suf, x.2 < r2)) := by
  constructor
  · have hne : rowsC.map (fun p => (p.1, p.2.f1_score)) ≠ [] := by
      simpa using hC
    exact selectBest_spec _ hne
  · have hne : rowsR.map (fun p => (p.1, p.2.r2_score)) ≠ [] := by
      simpa using hR
    exact selectBest_spec _ hne

/-- C4 witness: on one-candidate lists the selection is defined. -/
theorem selection_highest_last_tie_witness :
    (bestClassificationModelName singleClfRows).isSome = true ∧
      (bestRegressionModelName singleRegRows).isSome = true := by
  have h := selection_highest_last_tie singleClfRows singleRegRows
    (by simp [singleClfRows]) (by simp [singleRegRows])
  exact ⟨h.1.1, h.2.1⟩

/-- C5: for a numeric column with at least one present value, the imputation
step replaces every missing entry with the median of the column's present
values, computed over the whole table's column, and leaves present entries
unchanged. -/
theorem numeric_median_imputation (t : Table) (name : String)
    (vs : List (Option ℚ)) (h : lookup t name = some (.num vs))
    (hx : ∃ x : ℚ, some x ∈ vs) :
    ∃ m, medianOpt vs = some m ∧
      lookup (fillNumeric t) name =
        some (.num (vs.map (fun v => some (v.getD m)))) := by
  obtain ⟨x, hxm⟩ := hx
  obtain ⟨m, hm⟩ := medianOpt_isSome vs (somes_ne_nil_of_mem x vs hxm)
  refine ⟨m, hm, ?_⟩
  rw [lookup_fillNumeric, h]
  show some (colFillNum (.num vs)) = _
  rw [show colFillNum (.num vs) = .num (fillNumCol vs) from rfl,
    fillNumCol_spec vs m hm]

/-- C5 witness: enrollment [10, 20, NaN, 40] has its missing entry replaced
with the median 20 of the present values. -/
theorem numeric_median_imputation_witness :
    medianOpt [some 10, some 20, none, some 40] = some 20 ∧
      lookup (fillNumeric tableEnrollment) "EnrollmentCount" =
        some (.num [some 10, some 20, some 20, some 40]) := by
  obtain ⟨m, hm, hl⟩ := numeric_median_imputation tableEnrollment "EnrollmentCount"
    [some 10, some 20, none, some 40] rfl ⟨10, by decide⟩
  have h20 : (20 : ℚ) = m :=
    Option.some_inj.mp
      ((by decide : medianOpt [some 10, some 20, none, some 40] = some 20).symm.trans hm)
  constructor
  · rw [← h20] at hm
    exact hm
  · rw [hl, ← h20]
    decide

/-- C6: every binary indicator column derived by the pipeline (the
industry-sponsorship, phase, randomization, blinding, open-label,
multi-country and US-site flags) contains only the values 0 and 1, in both
the cleaned table and the modeling table.  The hypothesis that the input
lacks the column ensures the output column is the derived one. -/
theorem indicators_binary (t c m : Table) (name : String)
    (h : featureEngineer t = .ok (c, m)) (hname : name ∈ indicatorNames)
    (hfresh : lookup t name = none) :
    (∀ vs, lookup c name = some (.num vs) → all01 vs) ∧
    (∀ vs, lookup m name = some (.num vs) → all01 vs) := by
  obtain ⟨t1, t3, t6, t7, p1, p3, p6, p7, ptar⟩ := featureEngineer_ok t c m h
  have hnE : name ≠ "EnrollmentCount" := by
    intro he; subst he; exact absurd hname (by decide)
  have hn1 : lookup t1 name = none := by
    rw [coerce_ok_ne t t1 name p1 hnE, hfresh]
  have hn2 : lookup (fillNumeric t1) name = none := by
    rw [lookup_fillNumeric, hn1]; rfl
  have hn3 : lookup t3 name = none := fillMode_ok_none _ _ name p3 hn2
  have hn4 : lookup (convertDates t3) name = none := by
    rw [convertDates_ne t3 name (by intro he; subst he; exact absurd hname (by decide))
      (by intro he; subst he; exact absurd hname (by decide))
      (by intro he; subst he; exact absurd hname (by decide)), hn3]
  have hn5 : lookup (addTemporal (convertDates t3)) name = none := by
    rw [addTemporal_ne _ name (by intro he; subst he; exact absurd hname (by decide))
      (by intro he; subst he; exact absurd hname (by decide))
      (by intro he; subst he; exact absurd hname (by decide)), hn4]
  have hn6 : lookup t6 name = none := by
    rw [addDuration_ok_ne _ t6 name p6
      (by intro he; subst he; exact absurd hname (by decide)), hn5]
  have hG : lookup t7 name = none ∨ ∃ vs, lookup t7 name = some (.num vs) ∧ all01 vs :=
    addIndicators_ok_G t6 t7 name p7 (Or.inl hn6)
  have hcs : name ≠ "completion_status" := by
    intro he; subst he; exact absurd hname (by decide)
  have hlen : lookup (addTextLengths t7) name = lookup t7 name :=
    addTextLengths_ne t7 name (by intro he; subst he; exact absurd hname (by decide))
      (by intro he; subst he; exact absurd hname (by decide))
      (by intro he; subst he; exact absurd hname (by decide))
  have hcEq : lookup c name = lookup t7 name := by
    have e3 := addTarget_fst_ne (addTextLengths t7) name hcs
    rw [ptar] at e3
    rw [e3, hlen]
  have hmEq := addTarget_snd (addTextLengths t7) name hcs
  rw [ptar] at hmEq
  constructor
  · intro vs hvs
    rcases hG with hnone | ⟨vs0, hvs0, h01⟩
    · rw [hcEq, hnone] at hvs; exact absurd hvs (by simp)
    · rw [hcEq, hvs0] at hvs
      simp only [Option.some_inj, ColVals.num.injEq] at hvs
      rw [← hvs]; exact h01
  · intro vs hvs
    rcases hmEq with heq | ⟨mask, hmap⟩
    · rw [heq, hlen] at hvs
      rcases hG with hnone | ⟨vs0, hvs0, h01⟩
      · rw [hnone] at hvs; exact absurd hvs (by simp)
      · rw [hvs0] at hvs
        simp only [Option.some_inj, ColVals.num.injEq] at hvs
        rw [← hvs]; exact h01
    · rw [hlen] at hmap
      rcases hG with hnone | ⟨vs0, hvs0, h01⟩
      · rw [hnone] at hmap
        rw [hmap] at hvs
        exact absurd hvs (by simp)
      · rw [hvs0] at hmap
        rw [show (some (ColVals.num vs0)).map (maskFilterCol mask) =
          some (.num (maskFilter mask vs0)) from rfl] at hmap
        rw [hmap] at hvs
        simp only [Option.some_inj, ColVals.num.injEq] at hvs
        intro q hq
        rw [← hvs] at hq
        exact h01 q (mem_maskFilter mask vs0 (some q) hq)

/-- C6 witness: the derived is_phase_1 column on a concrete table takes the
value 1, which the theorem certifies is 0 or 1. -/
theorem indicators_binary_witness : (1 : ℚ) = 0 ∨ (1 : ℚ) = 1 := by
  have hcm : featureEngineer tablePhases =
      .ok (feClean tablePhases, feModel tablePhases) := by decide
  have h := (indicators_binary tablePhases (feClean tablePhases) (feModel tablePhases)
    "is_phase_1" hcm (by decide) rfl).1
  exact h [some 1, some 0] (by decide) 1 (by decide)

/-- C1 counterexample: a table that already carries trial_duration_days = -5
passes through the transform unchanged, so the output does carry a negative
duration value, refuting the universal no-negative-output reading. -/
theorem negative_duration_counterexample :
    (featureEngineer tableNegativePre).map
        (fun p => lookup p.1 "trial_duration_days") =
      .ok (some (.num [some (-5)])) ∧
      ((-5 : ℚ) < 0) := ⟨by decide, by decide⟩

/-- C1 (amended): when the duration column is not already present, every
value of the computed trial_duration_days column in the cleaned output is
non-negative; and a computed duration that comes out negative is replaced by
the median of the valid (non-negative) durations of the column. -/
theorem computed_duration_nonnegative (t c m : Table)
    (h : featureEngineer t = .ok (c, m))
    (hfresh : lookup t "trial_duration_days" = none) :
    (∀ vs, lookup c "trial_duration_days" = some (.num vs) →
      ∀ q : ℚ, some q ∈ vs → 0 ≤ q) ∧
    (∀ (cs ss : List (Option CalDate)) (i : Nat) (d : ℚ),
      (rawDurs cs ss).getD i none = some d → d < 0 →
      (durFill cs ss).getD i none = medianOpt (validDurs cs ss)) := by
  obtain ⟨t1, t3, t6, t7, p1, p3, p6, p7, ptar⟩ := featureEngineer_ok t c m h
  constructor
  · have hn1 : lookup t1 "trial_duration_days" = none := by
      rw [coerce_ok_ne t t1 _ p1 (by decide), hfresh]
    have hn2 : lookup (fillNumeric t1) "trial_duration_days" = none := by
      rw [lookup_fillNumeric, hn1]; rfl
    have hn3 : lookup t3 "trial_duration_days" = none :=
      fillMode_ok_none _ _ _ p3 hn2
    have hn4 : lookup (convertDates t3) "trial_duration_days" = none := by
      rw [convertDates_ne t3 _ (by decide) (by decide) (by decide), hn3]
    have hn5 : lookup (addTemporal (convertDates t3)) "trial_duration_days" = none := by
      rw [addTemporal_ne _ _ (by decide) (by decide) (by decide), hn4]
    have hnc : hasCol (addTemporal (convertDates t3)) "trial_duration_days" = false := by
      unfold hasCol
      rw [hn5]
      rfl
    have hpost : lookup c "trial_duration_days" = lookup t6 "trial_duration_days" :=
      postIndicators_preserve t6 t7 c m _ p7 ptar (by decide) (by decide) (by decide)
        (by decide) (by decide)
    unfold addDuration at p6
    rw [if_neg (by simp [hnc])] at p6
    cases hc5 : lookup (addTemporal (convertDates t3)) "CompletionDate" with
    | none =>
      rw [hc5] at p6
      simp only [Except.ok.injEq] at p6
      intro vs hvs
      rw [hpost, ← p6, hn5] at hvs
      exact absurd hvs (by simp)
    | some cCol =>
      rw [hc5] at p6
      cases hs5 : lookup (addTemporal (convertDates t3)) "StartDate" with
      | none => rw [hs5] at p6; exact absurd p6 (by simp)
      | some sCol =>
        rw [hs5] at p6
        cases cCol with
        | num ws => exact absurd p6 (by simp)
        | text ws => exact absurd p6 (by simp)
        | date cs =>
          cases sCol with
          | num ws => exact absurd p6 (by simp)
          | text ws => exact absurd p6 (by simp)
          | date ss =>
            simp only [Except.ok.injEq] at p6
            intro vs hvs
            rw [hpost, ← p6, lookup_setCol_self] at hvs
            simp only [Option.some_inj, ColVals.num.injEq] at hvs
            intro q hq
            rw [← hvs] at hq
            exact durFill_nonneg cs ss q hq
  · intro cs ss i d hraw hneg
    have hlt : i < (rawDurs cs ss).length := by
      by_contra hge
      rw [List.getD_eq_default _ _ (le_of_not_lt hge)] at hraw
      exact absurd hraw (by simp)
    have hlt2 : i < (validDurs cs ss).length := by
      unfold validDurs
      rw [List.length_map]
      exact hlt
    have hv : (validDurs cs ss).getD i none = none := by
      unfold validDurs
      rw [getD_map_of_lt _ _ i none none hlt, hraw]
      show (if d < 0 then none else some d) = none
      rw [if_pos hneg]
    unfold durFill
    rw [getD_map_of_lt _ _ i none none hlt2, hv]
    rfl

/-- C1 witness: a trial with swapped dates (computed duration -100) has its
duration replaced by the median of the valid durations (100), and 100 is
non-negative. -/
theorem computed_duration_nonnegative_witness :
    (0 : ℚ) ≤ 100 ∧
      (durFill [some ⟨2020, 4, 10⟩, some ⟨2020, 1, 1⟩]
               [some ⟨2020, 1, 1⟩, some ⟨2020, 4, 10⟩]).getD 1 none =
        medianOpt (validDurs [some ⟨2020, 4, 10⟩, some ⟨2020, 1, 1⟩]
                             [some ⟨2020, 1, 1⟩, some ⟨2020, 4, 10⟩]) := by
  have hcm : featureEngineer tableDurations =
      .ok (feClean tableDurations, feModel tableDurations) := by decide
  have h := computed_duration_nonnegative tableDurations (feClean tableDurations)
    (feModel tableDurations) hcm rfl
  refine ⟨?_, ?_⟩
  · exact h.1 [some 100, some 100] (by decide) 100 (by decide)
  · exact h.2 [some ⟨2020, 4, 10⟩, some ⟨2020, 1, 1⟩]
      [some ⟨2020, 1, 1⟩, some ⟨2020, 4, 10⟩] 1 (-100) (by decide) (by decide)

theorem status_pipeline (t c m : Table) (vs : List (Option String))
    (h : featureEngineer t = .ok (c, m))
    (hcs : lookup t "completion_status" = none)
    (hos : lookup t "OverallStatus" = some (.text vs)) :
    lookup c "OverallStatus" = some (.text (modeFillList vs)) ∧
    lookup c "completion_status" =
      some (.num (eqIndicator (.text (modeFillList vs)) "Completed")) ∧
    m = filterTable c (isinMask (.text (modeFillList vs)) completedStatuses) := by
  obtain ⟨t1, t3, t6, t7, p1, p3, p6, p7, ptar⟩ := featureEngineer_ok t c m h
  have ho1 : lookup t1 "OverallStatus" = some (.text vs) := by
    rw [coerce_ok_ne t t1 _ p1 (by decide), hos]
  have ho2 : lookup (fillNumeric t1) "OverallStatus" = some (.text vs) := by
    rw [lookup_fillNumeric, ho1]; rfl
  have ho3 : lookup t3 "OverallStatus" = some (.text (modeFillList vs)) :=
    fillMode_ok_text _ _ _ vs p3 ho2
  have ho4 : lookup (convertDates t3) "OverallStatus" =
      some (.text (modeFillList vs)) := by
    rw [convertDates_ne t3 _ (by decide) (by decide) (by decide), ho3]
  have ho5 : lookup (addTemporal (convertDates t3)) "OverallStatus" =
      some (.text (modeFillList vs)) := by
    rw [addTemporal_ne _ _ (by decide) (by decide) (by decide), ho4]
  have ho6 : lookup t6 "OverallStatus" = some (.text (modeFillList vs)) := by
    rw [addDuration_ok_ne _ t6 _ p6 (by decide), ho5]
  have ho7 : lookup t7 "OverallStatus" = some (.text (modeFillList vs)) := by
    rw [addIndicators_ok_ne t6 t7 _ p7 (by decide), ho6]
  have ho8 : lookup (addTextLengths t7) "OverallStatus" =
      some (.text (modeFillList vs)) := by
    rw [addTextLengths_ne _ _ (by decide) (by decide) (by decide), ho7]
  have hc1 : lookup t1 "completion_status" = none := by
    rw [coerce_ok_ne t t1 _ p1 (by decide), hcs]
  have hc2 : lookup (fillNumeric t1) "completion_status" = none := by
    rw [lookup_fillNumeric, hc1]; rfl
  have hc3 : lookup t3 "completion_status" = none :=
    fillMode_ok_none _ _ _ p3 hc2
  have hc4 : lookup (convertDates t3) "completion_status" = none := by
    rw [convertDates_ne t3 _ (by decide) (by decide) (by decide), hc3]
  have hc5 : lookup (addTemporal (convertDates t3)) "completion_status" = none := by
    rw [addTemporal_ne _ _ (by decide) (by decide) (by decide), hc4]
  have hc6 : lookup t6 "completion_status" = none := by
    rw [addDuration_ok_ne _ t6 _ p6 (by decide), hc5]
  have hc7 : lookup t7 "completion_status" = none := by
    rw [addIndicators_ok_ne t6 t7 _ p7 (by decide), hc6]
  have hc8 : lookup (addTextLengths t7) "completion_status" = none := by
    rw [addTextLengths_ne _ _ (by decide) (by decide) (by decide), hc7]
  have hcol : hasCol (addTextLengths t7) "completion_status" = false := by
    unfold hasCol
    rw [hc8]
    rfl
  have hmk := addTarget_make (addTextLengths t7) (.text (modeFillList vs)) hcol ho8
  rw [hmk] at ptar
  have hcEq : c = setCol (addTextLengths t7) "completion_status"
      (.num (eqIndicator (.text (modeFillList vs)) "Completed")) :=
    (congrArg Prod.fst ptar).symm
  have hmEq : m = filterTable (setCol (addTextLengths t7) "completion_status"
      (.num (eqIndicator (.text (modeFillList vs)) "Completed")))
      (isinMask (.text (modeFillList vs)) completedStatuses) :=
    (congrArg Prod.snd ptar).symm
  refine ⟨?_, ?_, ?_⟩
  · rw [hcEq, lookup_setCol_ne _ _ _ _ (by decide), ho8]
  · rw [hcEq, lookup_setCol_self]
  · rw [hmEq, hcEq]

/-- C2 counterexample: a table that already carries a completion_status
column skips the definitive-outcome filter entirely, so a Recruiting row
stays in the modeling output. -/
theorem modeling_pre_target_counterexample :
    (featureEngineer tablePreTarget).map (fun p => lookup p.2 "OverallStatus") =
      .ok (some (.text [some "Recruiting"])) ∧
      ¬ "Recruiting" ∈ completedStatuses := ⟨by decide, by decide⟩

/-- C2 (amended): when the input has an OverallStatus column and no
pre-existing completion_status column, the modeling output is exactly the
rows whose (mode-imputed) status lies in the definitive set Completed,
Terminated, Suspended, Withdrawn, with the binary target 1 exactly on
Completed rows: each output column is the cleaned column filtered by the
status mask, and the mask and target are characterized pointwise. -/
theorem modeling_definitive_rows (t c m : Table) (vs : List (Option String))
    (h : featureEngineer t = .ok (c, m))
    (hcs : lookup t "completion_status" = none)
    (hos : lookup t "OverallStatus" = some (.text vs)) :
    (∀ n col, lookup c n = some col →
      lookup m n =
        some (maskFilterCol (isinMask (.text (modeFillList vs)) completedStatuses) col)) ∧
    lookup c "OverallStatus" = some (.text (modeFillList vs)) ∧
    lookup c "completion_status" =
      some (.num (eqIndicator (.text (modeFillList vs)) "Completed")) ∧
    (∀ i : Nat,
      (isinMask (.text (modeFillList vs)) completedStatuses).getD i false = true ↔
        ∃ s, (modeFillList vs).getD i none = some s ∧ s ∈ completedStatuses) ∧
    (∀ i : Nat,
      (eqIndicator (.text (modeFillList vs)) "Completed").getD i (some 0) = some 1 ↔
        (modeFillList vs).getD i none = some "Completed") := by
  obtain ⟨h1, h2, h3⟩ := status_pipeline t c m vs h hcs hos
  refine ⟨?_, h1, h2, ?_, ?_⟩
  · intro n col hcol
    rw [h3, filterTable, lookup_mapCols, hcol]
    rfl
  · intro i
    show ((modeFillList vs).map (fun v =>
      match v with
      | some s => decide (s ∈ completedStatuses)
      | none => false)).getD i false = true ↔ _
    rw [getD_map_gen _ _ i none false rfl]
    cases (modeFillList vs).getD i none with
    | none => simp
    | some s => simp
  · intro i
    show ((modeFillList vs).map (fun v =>
      some (if v = some "Completed" then (1 : ℚ) else 0))).getD i (some 0) = some 1 ↔ _
    rw [getD_map_gen _ _ i none (some 0) (by simp)]
    cases hv : (modeFillList vs).getD i none with
    | none => simp
    | some s =>
      by_cases hs : s = "Completed"
      · subst hs; simp
      · simp [hs]

/-- C2 witness: statuses [Completed, Terminated, Recruiting] yield a modeling
output of exactly the first two rows with binary target [1, 0]. -/
theorem modeling_definitive_rows_witness :
    lookup (feModel tableStatuses) "OverallStatus" =
        some (.text [some "Completed", some "Terminated"]) ∧
      lookup (feModel tableStatuses) "completion_status" =
        some (.num [some 1, some 0]) := by
  have hcm : featureEngineer tableStatuses =
      .ok (feClean tableStatuses, feModel tableStatuses) := by decide
  have h := modeling_definitive_rows tableStatuses (feClean tableStatuses)
    (feModel tableStatuses) [some "Completed", some "Terminated", some "Recruiting"]
    hcm rfl (by decide)
  constructor
  · have hx := h.1 "OverallStatus" _ h.2.1
    rw [hx]; decide
  · have hx := h.1 "completion_status" _ h.2.2.1
    rw [hx]; decide

/-- C3 counterexample: BriefTitle = ["ab", missing]; the missing row's
emitted BriefTitle_length is 2 (the length of the imputed modal value), not
0 as the claim states. -/
theorem text_length_missing_counterexample :
    (featureEngineer tableTexts).map (fun p => lookup p.1 "BriefTitle_length") =
      .ok (some (.num [some 2, some 2])) ∧
      (featureEngineer tableTexts).map (fun p => lookup p.1 "BriefSummary_length") =
        .ok (some (.num [some 3, some 3])) ∧
      (featureEngineer tableTexts).map (fun p => lookup p.1 "DetailedDescription_length") =
        .ok (some (.num [some 9, some 9])) ∧
      lookup tableTexts "BriefTitle" = some (.text [some "ab", none]) ∧
      lookup tableTexts "BriefSummary" = some (.text [none, some "xyz"]) ∧
      lookup tableTexts "DetailedDescription" = some (.text [some "long text", none]) ∧
      ¬ (2 : ℚ) = 0 ∧ ¬ (3 : ℚ) = 0 ∧ ¬ (9 : ℚ) = 0 :=
  ⟨by decide, by decide, by decide, by decide, by decide, by decide,
   by decide, by decide, by decide⟩

/-- C3 (amended): for every configured free-text column present in the input
(BriefTitle, BriefSummary, DetailedDescription), the emitted column_length
feature is the character length of the value after categorical mode
imputation: a missing text value is first replaced by the column's most
frequent value, so its emitted length is the length of that modal value
(length 0 arises only from an empty imputed string, not from missingness). -/
theorem text_length_after_mode (t c m : Table) (nm : String)
    (vs : List (Option String))
    (h : featureEngineer t = .ok (c, m))
    (hnm : nm ∈ textColumnNames)
    (hcol : lookup t nm = some (.text vs)) :
    lookup c (nm ++ "_length") =
      some (.num ((modeFillList vs).map (fun v => some (qOfNat (v.getD "").length)))) ∧
    (∀ i : Nat, i < vs.length → vs.getD i none = none →
      (modeFillList vs).getD i none = some (modeValD vs)) ∧
    (∀ s : String, countStr (somes vs) s ≤ countStr (somes vs) (modeValD vs)) := by
  have hnm3 : nm = "BriefTitle" ∨ nm = "BriefSummary" ∨ nm = "DetailedDescription" := by
    simpa [textColumnNames] using hnm
  obtain ⟨t1, t3, t6, t7, p1, p3, p6, p7, ptar⟩ := featureEngineer_ok t c m h
  refine ⟨?_, ?_, fun s => modeValD_most_frequent vs s⟩
  · have hb1 : lookup t1 nm = some (.text vs) := by
      rw [coerce_ok_ne t t1 _ p1
        (by rcases hnm3 with h' | h' | h' <;> subst h' <;> decide), hcol]
    have hb2 : lookup (fillNumeric t1) nm = some (.text vs) := by
      rw [lookup_fillNumeric, hb1]; rfl
    have hb3 : lookup t3 nm = some (.text (modeFillList vs)) :=
      fillMode_ok_text _ _ _ vs p3 hb2
    have hb4 : lookup (convertDates t3) nm = some (.text (modeFillList vs)) := by
      rw [convertDates_ne t3 _
        (by rcases hnm3 with h' | h' | h' <;> subst h' <;> decide)
        (by rcases hnm3 with h' | h' | h' <;> subst h' <;> decide)
        (by rcases hnm3 with h' | h' | h' <;> subst h' <;> decide), hb3]
    have hb5 : lookup (addTemporal (convertDates t3)) nm =
        some (.text (modeFillList vs)) := by
      rw [addTemporal_ne _ _
        (by rcases hnm3 with h' | h' | h' <;> subst h' <;> decide)
        (by rcases hnm3 with h' | h' | h' <;> subst h' <;> decide)
        (by rcases hnm3 with h' | h' | h' <;> subst h' <;> decide), hb4]
    have hb6 : lookup t6 nm = some (.text (modeFillList vs)) := by
      rw [addDuration_ok_ne _ t6 _ p6
        (by rcases hnm3 with h' | h' | h' <;> subst h' <;> decide), hb5]
    have hb7 : lookup t7 nm = some (.text (modeFillList vs)) := by
      rw [addIndicators_ok_ne t6 t7 _ p7
        (by rcases hnm3 with h' | h' | h' <;> subst h' <;> decide), hb6]
    have e3 := addTarget_fst_ne (addTextLengths t7) (nm ++ "_length")
      (by rcases hnm3 with h' | h' | h' <;> subst h' <;> decide)
    rw [ptar] at e3
    rw [e3]
    rcases hnm3 with h' | h' | h' <;> subst h'
    · have hlenv := addLengthFor_val "BriefTitle" t7 _ hb7
      have h2' : lookup (addLengthFor "BriefSummary" (addLengthFor "BriefTitle" t7))
          ("BriefTitle" ++ "_length") =
          some (.num (lenCol (.text (modeFillList vs)))) := by
        rw [addLengthFor_ne _ _ _ (by decide), hlenv]
      unfold addTextLengths
      rw [addLengthFor_ne _ _ _ (by decide), h2']
      rfl
    · have hbt7 : lookup (addLengthFor "BriefTitle" t7) "BriefSummary" =
          some (.text (modeFillList vs)) := by
        rw [addLengthFor_ne _ _ _ (by decide), hb7]
      have hlenv := addLengthFor_val "BriefSummary" _ _ hbt7
      have h2' : lookup (addTextLengths t7) ("BriefSummary" ++ "_length") =
          some (.num (lenCol (.text (modeFillList vs)))) := by
        unfold addTextLengths
        rw [addLengthFor_ne _ _ _ (by decide), hlenv]
      rw [h2']
      rfl
    · have hd1 : lookup (addLengthFor "BriefTitle" t7) "DetailedDescription" =
          some (.text (modeFillList vs)) := by
        rw [addLengthFor_ne _ _ _ (by decide), hb7]
      have hd2 : lookup (addLengthFor "BriefSummary" (addLengthFor "BriefTitle" t7))
          "DetailedDescription" = some (.text (modeFillList vs)) := by
        rw [addLengthFor_ne _ _ _ (by decide), hd1]
      have hlenv := addLengthFor_val "DetailedDescription" _ _ hd2
      have h2' : lookup (addTextLengths t7) ("DetailedDescription" ++ "_length") =
          some (.num (lenCol (.text (modeFillList vs)))) := by
        unfold addTextLengths
        rw [hlenv]
      rw [h2']
      rfl
  · intro i hi hmiss
    have hn : hasNone vs = true := hasNone_true_of_getD vs i hi hmiss
    unfold modeFillList
    rw [if_pos hn, getD_map_of_lt _ vs i none none hi, hmiss]
    rfl

/-- C3 witness: BriefTitle ["ab", missing], BriefSummary [missing, "xyz"] and
DetailedDescription ["long text", missing] yield length columns [2, 2],
[3, 3] and [9, 9], the missing rows getting the modal value's length. -/
theorem text_length_after_mode_witness :
    lookup (feClean tableTexts) "BriefTitle_length" =
        some (.num [some 2, some 2]) ∧
      lookup (feClean tableTexts) "BriefSummary_length" =
        some (.num [some 3, some 3]) ∧
      lookup (feClean tableTexts) "DetailedDescription_length" =
        some (.num [some 9, some 9]) ∧
      modeValD [some "ab", none] = "ab" := by
  have hcm : featureEngineer tableTexts =
      .ok (feClean tableTexts, feModel tableTexts) := by decide
  have h1 := text_length_after_mode tableTexts (feClean tableTexts)
    (feModel tableTexts) "BriefTitle" [some "ab", none] hcm (by decide) rfl
  have h2 := text_length_after_mode tableTexts (feClean tableTexts)
    (feModel tableTexts) "BriefSummary" [none, some "xyz"] hcm (by decide) rfl
  have h3 := text_length_after_mode tableTexts (feClean tableTexts)
    (feModel tableTexts) "DetailedDescription" [some "long text", none] hcm
    (by decide) rfl
  refine ⟨?_, ?_, ?_, by decide⟩
  · have e : ("BriefTitle" ++ "_length" : String) = "BriefTitle_length" := by decide
    have hx := h1.1
    rw [e] at hx
    rw [hx]
    decide
  · have e : ("BriefSummary" ++ "_length" : String) = "BriefSummary_length" := by decide
    have hx := h2.1
    rw [e] at hx
    rw [hx]
    decide
  · have e : ("DetailedDescription" ++ "_length" : String) =
        "DetailedDescription_length" := by decide
    have hx := h3.1
    rw [e] at hx
    rw [hx]
    decide

/-- C10: categorical mode imputation runs before target construction: a row
with a missing OverallStatus receives the dataset-wide most frequent status
(the modal value, which maximizes the multiplicity among present values), the
definitive-outcome mask at that row equals membership of the modal status in
the definitive set, and when the modal status is definitive the row enters
the modeling dataset carrying the modal status. -/
theorem mode_imputation_status (t c m : Table) (vs : List (Option String)) (i : Nat)
    (h : featureEngineer t = .ok (c, m))
    (hcs : lookup t "completion_status" = none)
    (hos : lookup t "OverallStatus" = some (.text vs))
    (hi : i < vs.length) (hmiss : vs.getD i none = none) :
    lookup c "OverallStatus" = some (.text (modeFillList vs)) ∧
    (modeFillList vs).getD i none = some (modeValD vs) ∧
    (∀ s : String, countStr (somes vs) s ≤ countStr (somes vs) (modeValD vs)) ∧
    (isinMask (.text (modeFillList vs)) completedStatuses).getD i false =
      decide (modeValD vs ∈ completedStatuses) ∧
    (modeValD vs ∈ completedStatuses →
      some (modeValD vs) ∈
        maskFilter (isinMask (.text (modeFillList vs)) completedStatuses)
          (modeFillList vs)) ∧
    lookup m "OverallStatus" =
      some (.text (maskFilter (isinMask (.text (modeFillList vs)) completedStatuses)
        (modeFillList vs))) := by
  obtain ⟨h1, h2, h3⟩ := status_pipeline t c m vs h hcs hos
  have hfld : (modeFillList vs).getD i none = some (modeValD vs) := by
    have hn : hasNone vs = true := hasNone_true_of_getD vs i hi hmiss
    unfold modeFillList
    rw [if_pos hn, getD_map_of_lt _ vs i none none hi, hmiss]
    rfl
  have hleni : i < (modeFillList vs).length := by
    rw [length_modeFillList]; exact hi
  have hmask : (isinMask (.text (modeFillList vs)) completedStatuses).getD i false =
      decide (modeValD vs ∈ completedStatuses) := by
    show ((modeFillList vs).map (fun v =>
      match v with
      | some s => decide (s ∈ completedStatuses)
      | none => false)).getD i false = _
    rw [getD_map_of_lt _ _ i none false hleni, hfld]
  refine ⟨h1, hfld, fun s => modeValD_most_frequent vs s, hmask, ?_, ?_⟩
  · intro hmem
    have hmaskT : (isinMask (.text (modeFillList vs)) completedStatuses).getD i
        false = true := by
      rw [hmask]
      exact decide_eq_true hmem
    have hm := getD_mem_maskFilter
      (isinMask (.text (modeFillList vs)) completedStatuses) (modeFillList vs) i none
      hleni hmaskT
    rw [hfld] at hm
    exact hm
  · rw [h3, filterTable, lookup_mapCols, h1]
    rfl

/-- C10 witness: with statuses [Completed, missing, Completed] the missing
row receives the modal status Completed, which is definitive, so it enters
the modeling dataset. -/
theorem mode_imputation_status_witness :
    lookup (feModel tableMissingStatus) "OverallStatus" =
        some (.text [some "Completed", some "Completed", some "Completed"]) ∧
      modeValD [some "Completed", none, some "Completed"] = "Completed" ∧
      ("Completed" : String) ∈ completedStatuses := by
  have hcm : featureEngineer tableMissingStatus =
      .ok (feClean tableMissingStatus, feModel tableMissingStatus) := by decide
  have h := mode_imputation_status tableMissingStatus (feClean tableMissingStatus)
    (feModel tableMissingStatus) [some "Completed", none, some "Completed"] 1 hcm rfl
    (by decide) (by decide) (by decide)
  refine ⟨?_, by decide, by decide⟩
  have h6 := h.2.2.2.2.2
  rw [h6]
  decide

/-! Helpers for the idempotence theorem. -/

theorem hasCol_false_iff (t : Table) (n : String) :
    hasCol t n = false ↔ lookup t n = none := by
  unfold hasCol
  cases lookup t n <;> simp

theorem hasCol_true_of_some (t : Table) (n : String) (c : ColVals)
    (h : lookup t n = some c) : hasCol t n = true := by
  unfold hasCol
  rw [h]
  rfl

theorem addDuration_noCD (t : Table) (hd : hasCol t "trial_duration_days" = false)
    (hc : lookup t "CompletionDate" = none) : addDuration t = .ok t := by
  unfold addDuration
  rw [if_neg (by simp [hd]), hc]

theorem colModeStep_text_ok (vs : List (Option String)) (c' : ColVals)
    (h : colModeStep (.text vs) = .ok c') :
    ∃ ws, fillModeCol vs = .ok ws ∧ c' = .text ws := by
  simp only [colModeStep] at h
  cases hf : fillModeCol vs with
  | error e => rw [hf] at h; exact absurd h (by simp [Except.map])
  | ok ws =>
    rw [hf] at h
    simp only [Except.map, Except.ok.injEq] at h
    exact ⟨ws, rfl, h.symm⟩

theorem colModeStep_text_of_noNone (ws : List (Option String))
    (h : hasNone ws = false) : colModeStep (.text ws) = .ok (.text ws) := by
  simp only [colModeStep]
  rw [fillModeCol_of_noNone ws h]
  rfl

theorem pass1_dur_value (t t1 t3 : Table) (c0 : ColVals)
    (p1 : coerceEnrollment t = .ok t1) (p3 : fillMode (fillNumeric t1) = .ok t3)
    (h0 : lookup t "trial_duration_days" = some c0) :
    ∃ c3, lookup t3 "trial_duration_days" = some c3 ∧
      colFillNum c3 = c3 ∧ colModeStep c3 = .ok c3 := by
  have e1 : lookup t1 "trial_duration_days" = some c0 := by
    rw [coerce_ok_ne t t1 _ p1 (by decide), h0]
  have e2 : lookup (fillNumeric t1) "trial_duration_days" = some (colFillNum c0) := by
    rw [lookup_fillNumeric, e1]
    rfl
  obtain ⟨c', hcs', hl'⟩ := fillMode_ok_some _ _ _ (colFillNum c0) p3 e2
  cases c0 with
  | num vs0 =>
    have hcs2 : colModeStep (ColVals.num (fillNumCol vs0)) = Except.ok c' := hcs'
    have hc' : c' = .num (fillNumCol vs0) := by
      simp only [colModeStep, Except.ok.injEq] at hcs2
      exact hcs2.symm
    subst hc'
    refine ⟨_, hl', ?_, rfl⟩
    show ColVals.num (fillNumCol (fillNumCol vs0)) = _
    rw [fillNumCol_idem]
  | text vs0 =>
    have hcs2 : colModeStep (ColVals.text vs0) = Except.ok c' := hcs'
    obtain ⟨ws, hfm, hc'⟩ := colModeStep_text_ok vs0 c' hcs2
    subst hc'
    have hwn : hasNone ws = false := fillModeCol_ok_hasNone vs0 ws hfm
    exact ⟨.text ws, hl', rfl, colModeStep_text_of_noNone ws hwn⟩
  | date ds0 =>
    have hcs2 : colModeStep (ColVals.date ds0) = Except.ok c' := hcs'
    have hc' : c' = .date ds0 := by
      simp only [colModeStep, Except.ok.injEq] at hcs2
      exact hcs2.symm
    subst hc'
    exact ⟨_, hl', rfl, rfl⟩

theorem pass2_dur_chase (c u1 u3 : Table) (dcol : ColVals)
    (q1 : coerceEnrollment c = .ok u1) (q3 : fillMode (fillNumeric u1) = .ok u3)
    (hD : lookup c "trial_duration_days" = some dcol)
    (hfix1 : colFillNum dcol = dcol) (hfix2 : colModeStep dcol = .ok dcol) :
    lookup (addTemporal (convertDates u3)) "trial_duration_days" = some dcol := by
  have e1 : lookup u1 "trial_duration_days" = some dcol := by
    rw [coerce_ok_ne c u1 _ q1 (by decide), hD]
  have e2 : lookup (fillNumeric u1) "trial_duration_days" = some dcol := by
    rw [lookup_fillNumeric, e1]
    show some (colFillNum dcol) = some dcol
    rw [hfix1]
  obtain ⟨c', hcs', hl'⟩ := fillMode_ok_some _ _ _ dcol q3 e2
  rw [hfix2] at hcs'
  simp only [Except.ok.injEq] at hcs'
  subst hcs'
  rw [addTemporal_ne _ _ (by decide) (by decide) (by decide),
    convertDates_ne _ _ (by decide) (by decide) (by decide), hl']

/-- C8: running the feature-engineering transform a second time on an
already-engineered table (the cleaned output of a first run on a table with a
StartDate column) does not change the temporal features or the duration
column: start_year, start_month and start_quarter are re-derived from the
same parsed StartDate and come out equal, and the now-present
trial_duration_days column is not recomputed and keeps its values. -/
theorem temporal_idempotence (t c m c2 m2 : Table)
    (h1 : featureEngineer t = .ok (c, m))
    (h2 : featureEngineer c = .ok (c2, m2))
    (hsd : ∃ sc, lookup t "StartDate" = some sc) :
    lookup c2 "start_year" = lookup c "start_year" ∧
    lookup c2 "start_month" = lookup c "start_month" ∧
    lookup c2 "start_quarter" = lookup c "start_quarter" ∧
    lookup c2 "trial_duration_days" = lookup c "trial_duration_days" := by
  obtain ⟨t1, t3, t6, t7, p1, p3, p6, p7, ptar⟩ := featureEngineer_ok t c m h1
  obtain ⟨u1, u3, u6, u7, q1, q3, q6, q7, qtar⟩ := featureEngineer_ok c c2 m2 h2
  obtain ⟨sc, hsc⟩ := hsd
  -- pass 1: StartDate becomes a datetime column with parsed values ds
  have hs1 : lookup t1 "StartDate" = some sc := by
    rw [coerce_ok_ne t t1 _ p1 (by decide), hsc]
  have hs2 : lookup (fillNumeric t1) "StartDate" = some (colFillNum sc) := by
    rw [lookup_fillNumeric, hs1]
    rfl
  obtain ⟨sc3, _, hs3⟩ := fillMode_ok_some _ _ _ (colFillNum sc) p3 hs2
  obtain ⟨ds, hds⟩ := toDatetimeCol_date_shape sc3
  have hs4 : lookup (convertDates t3) "StartDate" = some (.date ds) := by
    rw [convertDates_start, hs3]
    show some (toDatetimeCol sc3) = _
    rw [hds]
  have htmp := addTemporal_vals (convertDates t3) ds hs4
  have hs5 : lookup (addTemporal (convertDates t3)) "StartDate" = some (.date ds) := by
    rw [addTemporal_ne _ _ (by decide) (by decide) (by decide), hs4]
  -- pass 1: temporal features in the cleaned output
  have hyB := htmp.1
  have hmB := htmp.2.1
  have hqB := htmp.2.2
  have hy6 : lookup t6 "start_year" = lookup (addTemporal (convertDates t3)) "start_year" :=
    addDuration_ok_ne _ t6 _ p6 (by decide)
  have hm6 : lookup t6 "start_month" = lookup (addTemporal (convertDates t3)) "start_month" :=
    addDuration_ok_ne _ t6 _ p6 (by decide)
  have hq6 : lookup t6 "start_quarter" = lookup (addTemporal (convertDates t3)) "start_quarter" :=
    addDuration_ok_ne _ t6 _ p6 (by decide)
  have hyC : lookup c "start_year" =
      some (.num (ds.map (fun v => v.map (fun d => qOfInt d.year)))) := by
    rw [postIndicators_preserve t6 t7 c m _ p7 ptar (by decide) (by decide) (by decide)
      (by decide) (by decide), hy6, hyB]
  have hmC : lookup c "start_month" =
      some (.num (ds.map (fun v => v.map (fun d => qOfNat d.month)))) := by
    rw [postIndicators_preserve t6 t7 c m _ p7 ptar (by decide) (by decide) (by decide)
      (by decide) (by decide), hm6, hmB]
  have hqC : lookup c "start_quarter" =
      some (.num (ds.map (fun v => v.map (fun d => qOfNat ((d.month + 2) / 3))))) := by
    rw [postIndicators_preserve t6 t7 c m _ p7 ptar (by decide) (by decide) (by decide)
      (by decide) (by decide), hq6, hqB]
  have hs6 : lookup t6 "StartDate" = some (.date ds) := by
    rw [addDuration_ok_ne _ t6 _ p6 (by decide), hs5]
  have hsC : lookup c "StartDate" = some (.date ds) := by
    rw [postIndicators_preserve t6 t7 c m _ p7 ptar (by decide) (by decide) (by decide)
      (by decide) (by decide), hs6]
  -- pass 2: StartDate is already datetime, so the same temporal values are derived
  have ps1 : lookup u1 "StartDate" = some (.date ds) := by
    rw [coerce_ok_ne c u1 _ q1 (by decide), hsC]
  have ps2 : lookup (fillNumeric u1) "StartDate" = some (.date ds) := by
    rw [lookup_fillNumeric, ps1]
    rfl
  have ps3 : lookup u3 "StartDate" = some (.date ds) :=
    fillMode_ok_other _ _ _ (.date ds) q3 ps2 (fun vs hx => by cases hx)
  have ps4 : lookup (convertDates u3) "StartDate" = some (.date ds) := by
    rw [convertDates_start, ps3]
    rfl
  have qtmp := addTemporal_vals (convertDates u3) ds ps4
  have qy6 : lookup u6 "start_year" = lookup (addTemporal (convertDates u3)) "start_year" :=
    addDuration_ok_ne _ u6 _ q6 (by decide)
  have qm6 : lookup u6 "start_month" = lookup (addTemporal (convertDates u3)) "start_month" :=
    addDuration_ok_ne _ u6 _ q6 (by decide)
  have qq6 : lookup u6 "start_quarter" = lookup (addTemporal (convertDates u3)) "start_quarter" :=
    addDuration_ok_ne _ u6 _ q6 (by decide)
  refine ⟨?_, ?_, ?_, ?_⟩
  · rw [postIndicators_preserve u6 u7 c2 m2 _ q7 qtar (by decide) (by decide) (by decide)
      (by decide) (by decide), qy6, qtmp.1, hyC]
  · rw [postIndicators_preserve u6 u7 c2 m2 _ q7 qtar (by decide) (by decide) (by decide)
      (by decide) (by decide), qm6, qtmp.2.1, hmC]
  · rw [postIndicators_preserve u6 u7 c2 m2 _ q7 qtar (by decide) (by decide) (by decide)
      (by decide) (by decide), qq6, qtmp.2.2, hqC]
  · -- duration column
    have hpostC : lookup c "trial_duration_days" = lookup t6 "trial_duration_days" :=
      postIndicators_preserve t6 t7 c m _ p7 ptar (by decide) (by decide) (by decide)
        (by decide) (by decide)
    have hpostC2 : lookup c2 "trial_duration_days" = lookup u6 "trial_duration_days" :=
      postIndicators_preserve u6 u7 c2 m2 _ q7 qtar (by decide) (by decide) (by decide)
        (by decide) (by decide)
    cases h0 : lookup t "trial_duration_days" with
    | some c0 =>
      -- the duration column pre-exists: pass 1 only imputes it, pass 2 fixes it
      obtain ⟨c3, hc3, hfix1, hfix2⟩ := pass1_dur_value t t1 t3 c0 p1 p3 h0
      have hBd : lookup (addTemporal (convertDates t3)) "trial_duration_days" =
          some c3 := by
        rw [addTemporal_ne _ _ (by decide) (by decide) (by decide),
          convertDates_ne _ _ (by decide) (by decide) (by decide), hc3]
      have hskip := addDuration_skip (addTemporal (convertDates t3))
        (hasCol_true_of_some _ _ c3 hBd)
      rw [hskip] at p6
      simp only [Except.ok.injEq] at p6
      have hcd : lookup c "trial_duration_days" = some c3 := by
        rw [hpostC, ← p6, hBd]
      have hV := pass2_dur_chase c u1 u3 c3 q1 q3 hcd hfix1 hfix2
      have hskip2 := addDuration_skip (addTemporal (convertDates u3))
        (hasCol_true_of_some _ _ c3 hV)
      rw [hskip2] at q6
      simp only [Except.ok.injEq] at q6
      rw [hpostC2, ← q6, hV, hcd]
    | none =>
      -- no pre-existing duration column
      have hn1 : lookup t1 "trial_duration_days" = none := by
        rw [coerce_ok_ne t t1 _ p1 (by decide), h0]
      have hn2 : lookup (fillNumeric t1) "trial_duration_days" = none := by
        rw [lookup_fillNumeric, hn1]
        rfl
      have hn3 : lookup t3 "trial_duration_days" = none :=
        fillMode_ok_none _ _ _ p3 hn2
      have hn5 : lookup (addTemporal (convertDates t3)) "trial_duration_days" = none := by
        rw [addTemporal_ne _ _ (by decide) (by decide) (by decide),
          convertDates_ne _ _ (by decide) (by decide) (by decide), hn3]
      unfold addDuration at p6
      rw [if_neg (by simp [(hasCol_false_iff _ _).mpr hn5])] at p6
      cases hBc : lookup (addTemporal (convertDates t3)) "CompletionDate" with
      | none =>
        -- no CompletionDate either: the duration column stays absent in both runs
        rw [hBc] at p6
        simp only [Except.ok.injEq] at p6
        have hcd : lookup c "trial_duration_days" = none := by
          rw [hpostC, ← p6, hn5]
        have hccd : lookup c "CompletionDate" = none := by
          rw [postIndicators_preserve t6 t7 c m _ p7 ptar (by decide) (by decide)
            (by decide) (by decide) (by decide), ← p6, hBc]
        have f1 : lookup u1 "trial_duration_days" = none := by
          rw [coerce_ok_ne c u1 _ q1 (by decide), hcd]
        have f2 : lookup (fillNumeric u1) "trial_duration_days" = none := by
          rw [lookup_fillNumeric, f1]
          rfl
        have f3 : lookup u3 "trial_duration_days" = none :=
          fillMode_ok_none _ _ _ q3 f2
        have f5 : lookup (addTemporal (convertDates u3)) "trial_duration_days" = none := by
          rw [addTemporal_ne _ _ (by decide) (by decide) (by decide),
            convertDates_ne _ _ (by decide) (by decide) (by decide), f3]
        have g1 : lookup u1 "CompletionDate" = none := by
          rw [coerce_ok_ne c u1 _ q1 (by decide), hccd]
        have g2 : lookup (fillNumeric u1) "CompletionDate" = none := by
          rw [lookup_fillNumeric, g1]
          rfl
        have g3 : lookup u3 "CompletionDate" = none :=
          fillMode_ok_none _ _ _ q3 g2
        have g4 : lookup (convertDates u3) "CompletionDate" = none := by
          rw [convertDates_completion, g3]
          rfl
        have g5 : lookup (addTemporal (convertDates u3)) "CompletionDate" = none := by
          rw [addTemporal_ne _ _ (by decide) (by decide) (by decide), g4]
        have hnoCD := addDuration_noCD (addTemporal (convertDates u3))
          ((hasCol_false_iff _ _).mpr f5) g5
        rw [hnoCD] at q6
        simp only [Except.ok.injEq] at q6
        rw [hpostC2, ← q6, f5, hcd]
      | some cCol =>
        -- the duration column is derived in pass 1 and left untouched in pass 2
        have hACd : lookup (convertDates t3) "CompletionDate" = some cCol := by
          rw [← addTemporal_ne (convertDates t3) "CompletionDate" (by decide) (by decide)
            (by decide), hBc]
        rw [convertDates_completion] at hACd
        have hcds : ∃ cds, cCol = .date cds := by
          cases ht3c : lookup t3 "CompletionDate" with
          | none => rw [ht3c] at hACd; exact absurd hACd (by simp)
          | some x =>
            rw [ht3c] at hACd
            simp only [Option.map_some', Option.some_inj] at hACd
            obtain ⟨cds, hx⟩ := toDatetimeCol_date_shape x
            exact ⟨cds, by rw [← hACd, hx]⟩
        obtain ⟨cds, hcc⟩ := hcds
        subst hcc
        rw [hBc] at p6
        dsimp only at p6
        rw [hs5] at p6
        dsimp only at p6
        simp only [Except.ok.injEq] at p6
        have hcd : lookup c "trial_duration_days" =
            some (.num (durFill cds ds)) := by
          rw [hpostC, ← p6, lookup_setCol_self]
        have hfix1 : colFillNum (.num (durFill cds ds)) = .num (durFill cds ds) := by
          show ColVals.num (fillNumCol (durFill cds ds)) = _
          rw [fillNumCol_durFill]
        have hV := pass2_dur_chase c u1 u3 (.num (durFill cds ds)) q1 q3 hcd hfix1 rfl
        have hskip2 := addDuration_skip (addTemporal (convertDates u3))
          (hasCol_true_of_some _ _ _ hV)
        rw [hskip2] at q6
        simp only [Except.ok.injEq] at q6
        rw [hpostC2, ← q6, hV, hcd]

/-- C8 witness: the idempotence theorem applied to a concrete table run
through the transform twice. -/
theorem temporal_idempotence_witness :
    lookup (feClean (feClean tableIdem)) "start_year" =
        lookup (feClean tableIdem) "start_year" ∧
      lookup (feClean (feClean tableIdem)) "start_month" =
        lookup (feClean tableIdem) "start_month" ∧
      lookup (feClean (feClean tableIdem)) "start_quarter" =
        lookup (feClean tableIdem) "start_quarter" ∧
      lookup (feClean (feClean tableIdem)) "trial_duration_days" =
        lookup (feClean tableIdem) "trial_duration_days" := by
  have hcm1 : featureEngineer tableIdem =
      .ok (feClean tableIdem, feModel tableIdem) := by decide
  have hcm2 : featureEngineer (feClean tableIdem) =
      .ok (feClean (feClean tableIdem), feModel (feClean tableIdem)) := by decide
  exact temporal_idempotence tableIdem (feClean tableIdem) (feModel tableIdem)
    (feClean (feClean tableIdem)) (feModel (feClean tableIdem)) hcm1 hcm2
    ⟨.text [some "2020-01-01", some "2020-04-10", some "2019-06-15"], by decide⟩

end TrialPipeline
